import Mathlib

/-!
# Z80 CTC emulation: a shallow embedding of `z80_ctc.c`

The controller of `include/z80_ctc.h` is a record of four channels.  Every
public function of `src/z80_ctc.c` becomes a function on that record.

* `uint8_t` arguments are taken modulo `2^8` on entry, `uint32_t` ones modulo
  `2^32`; the only arithmetic that can wrap, `trigger_count++`, is written with
  an explicit `% 256`.
* Function pointers and their `void*` contexts are addresses (`0` is `NULL`).
  The code behind them is outside the library: a call through one is recorded
  in the trace the function returns, and it does not write to the controller.
  The byte a global interrupt handler returns is read from an interpretation
  `Z80_CTC_Handlers` of handler addresses.
* Two trace entries are bookkeeping: `decrement` marks a run of the counting
  step of a channel and `zero_count` marks a run of its `current_count == 0`
  block (where a `CTC_DEBUG` build logs the channel state).
-/

namespace Z80CTC

/-! ## Data model (`include/z80_ctc.h`) -/

/-- Values of the enum `Z80_CTC_Prescaler`: the enum is stored as its integer. -/
def CTC_PRESCALER_16 : Nat := 16

/-- Second value of the enum `Z80_CTC_Prescaler`. -/
def CTC_PRESCALER_256 : Nat := 256

/-- The enum `Z80_CTC_Mode`. -/
inductive Z80_CTC_Mode where
  | CTC_MODE_TIMER
  | CTC_MODE_COUNTER
  deriving DecidableEq, Repr

/-- The enum `Z80_CTC_TriggerEdge`. -/
inductive Z80_CTC_TriggerEdge where
  | CTC_TRIGGER_FALLING_EDGE
  | CTC_TRIGGER_RISING_EDGE
  deriving DecidableEq, Repr

open Z80_CTC_Mode Z80_CTC_TriggerEdge

/-- The struct `Z80_CTC_Channel`, field by field. -/
structure Z80_CTC_Channel where
  mode : Z80_CTC_Mode
  prescaler : Nat
  trigger_edge : Z80_CTC_TriggerEdge
  interrupt_enabled : Bool
  interrupt_vector : Nat
  control_register : Nat
  time_constant : Nat
  current_count : Nat
  is_running : Bool
  interrupt_pending : Bool
  last_trigger_state : Bool
  trigger_count : Nat
  expiration_callback : Nat
  callback_context : Nat
  deriving DecidableEq, Repr

/-- The struct `Z80_CTC` (build without `CTC_DEBUG`). -/
@[ext]
structure Z80_CTC where
  channels : Fin 4 → Z80_CTC_Channel
  system_clock_frequency : Nat
  interrupt_handler : Nat
  interrupt_context : Nat

/-- Calls that leave the library, and the two bookkeeping marks. -/
inductive Event where
  | decrement (channel : Nat)
  | zero_count (channel : Nat)
  | callback (channel fn context : Nat)
  | handler (fn channel context : Nat)
  deriving DecidableEq, Repr

/-- Interpretation of handler addresses: the byte the function at address `fn`
returns when called with `(channel_num, context)` while the controller is in
state `ctc`. -/
abbrev Z80_CTC_Handlers := Nat → Z80_CTC → Nat → Nat → Nat

/-- Assignment `ctc->channels[i] = ch`. -/
def Z80_CTC.setChannel (ctc : Z80_CTC) (i : Fin 4) (ch : Z80_CTC_Channel) : Z80_CTC :=
  { ctc with channels := fun j => if j = i then ch else ctc.channels j }

/-- The indices visited by `for (int i = 0; i < 4; i++)`. -/
def channel_indices : List (Fin 4) := [0, 1, 2, 3]

/-! ## Control register masks (`src/z80_ctc.c`, lines 6-13) -/

def CTC_CTRL_INTERRUPT_MASK : Nat := 0x80

def CTC_CTRL_MODE_MASK : Nat := 0x40

def CTC_CTRL_PRESCALER_MASK : Nat := 0x20

def CTC_CTRL_TRIGGER_EDGE_MASK : Nat := 0x10

def CTC_CTRL_TRIGGER_MODE_MASK : Nat := 0x08

def CTC_CTRL_TIME_CONSTANT_MASK : Nat := 0x04

def CTC_CTRL_RESET_MASK : Nat := 0x02

def CTC_CTRL_CONTROL_VECTOR_MASK : Nat := 0x01

/-! ## Operations (`src/z80_ctc.c`) -/

/-- The function `z80_ctc_set_interrupt_vector`. -/
def z80_ctc_set_interrupt_vector (ctc : Z80_CTC) (channel_num vector : Nat) : Z80_CTC :=
  let channel_num := channel_num % 256
  let vector := vector % 256
  if h : channel_num > 3 then ctc
  else
    let i : Fin 4 := ⟨channel_num, by omega⟩
    ctc.setChannel i { ctc.channels i with interrupt_vector := vector }

/-- The function `z80_ctc_set_global_interrupt_handler`. -/
def z80_ctc_set_global_interrupt_handler (ctc : Z80_CTC) (handler context : Nat) : Z80_CTC :=
  { ctc with interrupt_handler := handler, interrupt_context := context }

/-- The function `z80_ctc_get_interrupt_vector`. -/
def z80_ctc_get_interrupt_vector (ctc : Z80_CTC) (channel_num : Nat) : Nat :=
  let channel_num := channel_num % 256
  if h : channel_num > 3 then 0
  else (ctc.channels ⟨channel_num, by omega⟩).interrupt_vector

/-- Loop of `z80_ctc_has_pending_interrupt` over the indices still to visit. -/
def has_pending_loop (ctc : Z80_CTC) : List (Fin 4) → Bool
  | [] => false
  | i :: rest =>
    if (ctc.channels i).interrupt_enabled && (ctc.channels i).interrupt_pending then true
    else has_pending_loop ctc rest

/-- The function `z80_ctc_has_pending_interrupt`. -/
def z80_ctc_has_pending_interrupt (ctc : Z80_CTC) : Bool :=
  has_pending_loop ctc channel_indices

/-- Result of `z80_ctc_acknowledge_interrupt`: returned byte, controller, trace. -/
structure AckResult where
  value : Nat
  ctc : Z80_CTC
  trace : List Event

/-- Loop of `z80_ctc_acknowledge_interrupt` over the indices still to visit. -/
def acknowledge_loop (H : Z80_CTC_Handlers) (ctc : Z80_CTC) : List (Fin 4) → AckResult
  | [] => ⟨0, ctc, []⟩
  | i :: rest =>
    let channel := ctc.channels i
    if channel.interrupt_enabled && channel.interrupt_pending then
      let channel := { channel with interrupt_pending := false }
      let ctc := ctc.setChannel i channel
      if ctc.interrupt_handler ≠ 0 then
        ⟨H ctc.interrupt_handler ctc i.val ctc.interrupt_context % 256, ctc,
          [Event.handler ctc.interrupt_handler i.val ctc.interrupt_context]⟩
      else
        ⟨channel.interrupt_vector, ctc, []⟩
    else acknowledge_loop H ctc rest

/-- The function `z80_ctc_acknowledge_interrupt`. -/
def z80_ctc_acknowledge_interrupt (H : Z80_CTC_Handlers) (ctc : Z80_CTC) : AckResult :=
  acknowledge_loop H ctc channel_indices

/-- All bytes zero, as `memset(ctc, 0, sizeof(Z80_CTC))` leaves a channel. -/
def zero_channel : Z80_CTC_Channel :=
  { mode := CTC_MODE_TIMER, prescaler := 0, trigger_edge := CTC_TRIGGER_FALLING_EDGE,
    interrupt_enabled := false, interrupt_vector := 0, control_register := 0,
    time_constant := 0, current_count := 0, is_running := false,
    interrupt_pending := false, last_trigger_state := false, trigger_count := 0,
    expiration_callback := 0, callback_context := 0 }

/-- A controller with every byte zero. -/
def zero_ctc : Z80_CTC :=
  { channels := fun _ => zero_channel, system_clock_frequency := 0,
    interrupt_handler := 0, interrupt_context := 0 }

/-- The call `memset(ctc, 0, sizeof(Z80_CTC))`. -/
def memset_zero (_ctc : Z80_CTC) : Z80_CTC := zero_ctc

/-- The function `z80_ctc_init`. -/
def z80_ctc_init (ctc : Z80_CTC) (system_clock_frequency : Nat) : Z80_CTC :=
  let ctc := memset_zero ctc
  let ctc := { ctc with system_clock_frequency := system_clock_frequency % 2 ^ 32 }
  channel_indices.foldl
    (fun ctc i =>
      ctc.setChannel i
        { ctc.channels i with
          mode := CTC_MODE_TIMER
          prescaler := CTC_PRESCALER_16
          trigger_edge := CTC_TRIGGER_FALLING_EDGE
          is_running := false
          interrupt_enabled := false
          interrupt_pending := false })
    ctc

/-- Body of `z80_ctc_write_control` on the addressed channel. -/
def write_control_channel (channel : Z80_CTC_Channel) (control_word : Nat) : Z80_CTC_Channel :=
  let channel := { channel with control_register := control_word }
  let channel :=
    { channel with interrupt_enabled := decide (control_word &&& CTC_CTRL_INTERRUPT_MASK ≠ 0) }
  let channel :=
    { channel with
      mode := if control_word &&& CTC_CTRL_MODE_MASK ≠ 0 then CTC_MODE_COUNTER
              else CTC_MODE_TIMER }
  let channel :=
    { channel with
      prescaler := if control_word &&& CTC_CTRL_PRESCALER_MASK ≠ 0 then CTC_PRESCALER_256
                   else CTC_PRESCALER_16 }
  let channel :=
    { channel with
      trigger_edge := if control_word &&& CTC_CTRL_TRIGGER_EDGE_MASK ≠ 0
                      then CTC_TRIGGER_RISING_EDGE else CTC_TRIGGER_FALLING_EDGE }
  let channel :=
    if control_word &&& CTC_CTRL_RESET_MASK ≠ 0 then
      { channel with current_count := 0, is_running := false, interrupt_pending := false }
    else channel
  if control_word &&& CTC_CTRL_TIME_CONSTANT_MASK ≠ 0 then
    { channel with is_running := false }
  else channel

/-- The function `z80_ctc_write_control`. -/
def z80_ctc_write_control (ctc : Z80_CTC) (channel_num control_word : Nat) : Z80_CTC :=
  let channel_num := channel_num % 256
  let control_word := control_word % 256
  if h : channel_num > 3 then ctc
  else
    let i : Fin 4 := ⟨channel_num, by omega⟩
    ctc.setChannel i (write_control_channel (ctc.channels i) control_word)

/-- Body of `z80_ctc_write_time_constant` on the addressed channel. -/
def write_time_constant_channel (channel : Z80_CTC_Channel) (constant : Nat) :
    Z80_CTC_Channel :=
  { channel with
    time_constant := constant
    current_count := if constant = 0 then 256 else constant
    is_running := true
    interrupt_pending := false }

/-- The function `z80_ctc_write_time_constant`. -/
def z80_ctc_write_time_constant (ctc : Z80_CTC) (channel_num constant : Nat) : Z80_CTC :=
  let channel_num := channel_num % 256
  let constant := constant % 256
  if h : channel_num > 3 then ctc
  else
    let i : Fin 4 := ⟨channel_num, by omega⟩
    ctc.setChannel i (write_time_constant_channel (ctc.channels i) constant)

/-- The function `z80_ctc_set_callback`. -/
def z80_ctc_set_callback (ctc : Z80_CTC) (channel_num callback context : Nat) : Z80_CTC :=
  let channel_num := channel_num % 256
  if h : channel_num > 3 then ctc
  else
    let i : Fin 4 := ⟨channel_num, by omega⟩
    ctc.setChannel i
      { ctc.channels i with expiration_callback := callback, callback_context := context }

/-- The counting step that `z80_ctc_trigger_input` (lines 223-247) and
`z80_ctc_clock_tick` (lines 271-295) both run on channel `i`: decrement with a
floor at zero, then the `current_count == 0` block. -/
def count_down (i : Nat) (channel : Z80_CTC_Channel) : Z80_CTC_Channel × List Event :=
  let channel :=
    if channel.current_count > 0 then
      { channel with current_count := channel.current_count - 1 }
    else channel
  if channel.current_count = 0 then
    let channel :=
      { channel with
        current_count := if channel.time_constant = 0 then 256 else channel.time_constant }
    let channel :=
      if channel.interrupt_enabled then { channel with interrupt_pending := true }
      else channel
    (channel,
      Event.decrement i :: Event.zero_count i ::
        (if channel.expiration_callback ≠ 0 then
          [Event.callback i channel.expiration_callback channel.callback_context]
         else []))
  else (channel, [Event.decrement i])

/-- Body of `z80_ctc_trigger_input` on the addressed channel `i`. -/
def trigger_input_channel (i : Nat) (channel : Z80_CTC_Channel) (trigger_state : Bool) :
    Z80_CTC_Channel × List Event :=
  if channel.mode ≠ CTC_MODE_COUNTER then (channel, [])
  else
    let trigger_condition : Bool :=
      (decide (channel.trigger_edge = CTC_TRIGGER_RISING_EDGE) &&
        !channel.last_trigger_state && trigger_state) ||
      (decide (channel.trigger_edge = CTC_TRIGGER_FALLING_EDGE) &&
        channel.last_trigger_state && !trigger_state)
    let r :=
      if trigger_condition && channel.is_running then count_down i channel
      else (channel, [])
    ({ r.1 with last_trigger_state := trigger_state }, r.2)

/-- The function `z80_ctc_trigger_input`. -/
def z80_ctc_trigger_input (ctc : Z80_CTC) (channel_num : Nat) (trigger_state : Bool) :
    Z80_CTC × List Event :=
  let channel_num := channel_num % 256
  if h : channel_num > 3 then (ctc, [])
  else
    let i : Fin 4 := ⟨channel_num, by omega⟩
    let r := trigger_input_channel channel_num (ctc.channels i) trigger_state
    (ctc.setChannel i r.1, r.2)

/-- Body of the loop of `z80_ctc_clock_tick` for channel `i`. -/
def clock_tick_channel (i : Nat) (channel : Z80_CTC_Channel) :
    Z80_CTC_Channel × List Event :=
  if channel.mode ≠ CTC_MODE_TIMER ∨ channel.is_running = false then (channel, [])
  else
    let channel := { channel with trigger_count := (channel.trigger_count + 1) % 256 }
    if channel.trigger_count < channel.prescaler then (channel, [])
    else
      let channel := { channel with trigger_count := 0 }
      count_down i channel

/-- The function `z80_ctc_clock_tick`. -/
def z80_ctc_clock_tick (ctc : Z80_CTC) : Z80_CTC × List Event :=
  channel_indices.foldl
    (fun (acc : Z80_CTC × List Event) i =>
      let r := clock_tick_channel i.val (acc.1.channels i)
      (acc.1.setChannel i r.1, acc.2 ++ r.2))
    (ctc, [])

/-! ## Drivers: the loops a caller runs over the operations -/

/-- Calling `z80_ctc_clock_tick` `n` times in a row; the traces are joined. -/
def clock_ticks (ctc : Z80_CTC) : Nat → Z80_CTC × List Event
  | 0 => (ctc, [])
  | n + 1 =>
    let r := clock_ticks ctc n
    let r2 := z80_ctc_clock_tick r.1
    (r2.1, r.2 ++ r2.2)

/-- One full transition of the trigger line of channel `c`: low, then high
(the body of the second loop of `examples/z80_ctc_example.c`). -/
def trigger_pulse (ctc : Z80_CTC) (c : Nat) : Z80_CTC × List Event :=
  let r := z80_ctc_trigger_input ctc c false
  let r2 := z80_ctc_trigger_input r.1 c true
  (r2.1, r.2 ++ r2.2)

/-- Feeding `n` full transitions to channel `c`. -/
def trigger_pulses (ctc : Z80_CTC) (c : Nat) : Nat → Z80_CTC × List Event
  | 0 => (ctc, [])
  | n + 1 =>
    let r := trigger_pulses ctc c n
    let r2 := trigger_pulse r.1 c
    (r2.1, r.2 ++ r2.2)

/-- Feeding the level `v` to channel `c` `n` times in a row. -/
def trigger_repeat (ctc : Z80_CTC) (c : Nat) (v : Bool) : Nat → Z80_CTC × List Event
  | 0 => (ctc, [])
  | n + 1 =>
    let r := trigger_repeat ctc c v n
    let r2 := z80_ctc_trigger_input r.1 c v
    (r2.1, r.2 ++ r2.2)

/-- Calling `z80_ctc_acknowledge_interrupt` `n` times in a row. -/
def acknowledge_times (H : Z80_CTC_Handlers) (ctc : Z80_CTC) : Nat → Z80_CTC
  | 0 => ctc
  | n + 1 => (z80_ctc_acknowledge_interrupt H (acknowledge_times H ctc n)).ctc

/-- The reload value of a time constant: `0` stands for `256`. -/
def reload (time_constant : Nat) : Nat :=
  if time_constant = 0 then 256 else time_constant

/-- Number of runs of the counting step of channel `c` in a trace. -/
def decrements (c : Nat) (tr : List Event) : Nat :=
  tr.count (Event.decrement c)

/-- Number of zero-crossings of channel `c` in a trace. -/
def zero_crossings (c : Nat) (tr : List Event) : Nat :=
  tr.count (Event.zero_count c)

/-- Number of calls of the callback `fn(context)` made for channel `c`. -/
def callback_calls (c fn context : Nat) (tr : List Event) : Nat :=
  tr.count (Event.callback c fn context)

/-- Channel `i` has an interrupt that is both enabled and pending. -/
def requests (ctc : Z80_CTC) (i : Fin 4) : Bool :=
  (ctc.channels i).interrupt_enabled && (ctc.channels i).interrupt_pending

/-- Number of channels with an enabled, pending interrupt. -/
def pending_count (ctc : Z80_CTC) : Nat :=
  channel_indices.countP (requests ctc)

/-- The channel a control word leaves, written with the bits of the word. -/
def control_decoded (channel : Z80_CTC_Channel) (b : Nat) : Z80_CTC_Channel :=
  { channel with
    control_register := b
    interrupt_enabled := b.testBit 7
    mode := if b.testBit 6 then CTC_MODE_COUNTER else CTC_MODE_TIMER
    prescaler := if b.testBit 5 then 256 else 16
    trigger_edge := if b.testBit 4 then CTC_TRIGGER_RISING_EDGE else CTC_TRIGGER_FALLING_EDGE
    current_count := if b.testBit 1 then 0 else channel.current_count
    is_running := if b.testBit 1 || b.testBit 2 then false else channel.is_running
    interrupt_pending := if b.testBit 1 then false else channel.interrupt_pending }

/-! ## The counting step, iterated -/

/-- Running the counting step `d` times on channel `i`. -/
def count_downs (i : Nat) (channel : Z80_CTC_Channel) : Nat → Z80_CTC_Channel × List Event
  | 0 => (channel, [])
  | d + 1 =>
    let r := count_downs i channel d
    let r2 := count_down i r.1
    (r2.1, r.2 ++ r2.2)

/-- The channel after `d` counting steps, in closed form: `d` steps from the
count `C` under the reload value `R` are `R - C + d` steps from a fresh load. -/
def counted (ch : Z80_CTC_Channel) (d : Nat) : Z80_CTC_Channel :=
  { ch with
    current_count :=
      reload ch.time_constant -
        (reload ch.time_constant - ch.current_count + d) % reload ch.time_constant
    interrupt_pending :=
      ch.interrupt_pending || (ch.interrupt_enabled && decide (ch.current_count ≤ d)) }

/-! ## Clock ticks, channel by channel -/

/-- The channel a trace entry is about. -/
def Event.channel_of : Event → Nat
  | Event.decrement c => c
  | Event.zero_count c => c
  | Event.callback c _ _ => c
  | Event.handler _ c _ => c

/-- Running the loop body of `z80_ctc_clock_tick` for channel `i` on `n`
successive ticks. -/
def channel_ticks (i : Nat) (channel : Z80_CTC_Channel) : Nat → Z80_CTC_Channel × List Event
  | 0 => (channel, [])
  | n + 1 =>
    let r := channel_ticks i channel n
    let r2 := clock_tick_channel i r.1
    (r2.1, r.2 ++ r2.2)

/-- A channel with the two fields the counting step writes blanked out. -/
def config_of (ch : Z80_CTC_Channel) : Z80_CTC_Channel :=
  { ch with current_count := 0, interrupt_pending := false }

/-! ## Interrupt arbitration -/

/-- What `z80_ctc_acknowledge_interrupt` does once its scan stops at channel
`i`: the body of the `if` at lines 58-69. -/
def acknowledge_at (H : Z80_CTC_Handlers) (ctc : Z80_CTC) (i : Fin 4) : AckResult :=
  let cleared := ctc.setChannel i { ctc.channels i with interrupt_pending := false }
  if ctc.interrupt_handler ≠ 0 then
    ⟨H ctc.interrupt_handler cleared i.val ctc.interrupt_context % 256, cleared,
      [Event.handler ctc.interrupt_handler i.val ctc.interrupt_context]⟩
  else ⟨(ctc.channels i).interrupt_vector, cleared, []⟩

/-- A controller in which channels 0 and 2 both have an enabled, pending
interrupt, with vectors `0x10` and `0x30`; channels 1 and 3 are idle. -/
def two_pending : Z80_CTC :=
  (zero_ctc.setChannel 0
    { zero_channel with
      interrupt_enabled := true, interrupt_pending := true, interrupt_vector := 0x10 }).setChannel 2
    { zero_channel with
      interrupt_enabled := true, interrupt_pending := true, interrupt_vector := 0x30 }

/-- A handler interpretation: every handler returns its channel number plus 64. -/
def sample_handlers : Z80_CTC_Handlers := fun _ _ channel_num _ => channel_num + 64

/-! ## Concrete controllers used in the scenarios -/

/-- The timer set-up of the spec's scenario: `init(4000000)`,
`write_control(0, 0x86)`, `write_time_constant(0, 100)`. -/
def scenario_timer : Z80_CTC :=
  z80_ctc_write_time_constant
    (z80_ctc_write_control (z80_ctc_init zero_ctc 4000000) 0 0x86) 0 100

/-- A timer on channel 0 with prescaler 256 and time constant 1:
`init(4000000)`, `write_control(0, 0x20)`, `write_time_constant(0, 1)`. -/
def prescaler_256_timer : Z80_CTC :=
  z80_ctc_write_time_constant
    (z80_ctc_write_control (z80_ctc_init zero_ctc 4000000) 0 0x20) 0 1

/-! ## Counter mode: one transition of the trigger line -/

/-- One full transition (low, then high) seen by the channel `i` alone. -/
def pulse_channel (i : Nat) (channel : Z80_CTC_Channel) : Z80_CTC_Channel × List Event :=
  let r := trigger_input_channel i channel false
  let r2 := trigger_input_channel i r.1 true
  (r2.1, r.2 ++ r2.2)

/-- Channel 1 set up by `write_control(1, 0xD0)` (interrupts on, Counter mode,
Rising edge) and `write_time_constant(1, 10)`, with a callback registered. -/
def rising_counter : Z80_CTC :=
  z80_ctc_write_time_constant
    (z80_ctc_write_control (z80_ctc_set_callback zero_ctc 1 0x4000 0x5000) 1 0xD0) 1 10

/-! ## Vocabulary of the isolation and reachability statements -/

/-- Everything outside channel `c` is the same in `s2` as in `s1`: the other
three channels, the clock frequency, and the global handler with its context. -/
def same_outside (c : Fin 4) (s1 s2 : Z80_CTC) : Prop :=
  (∀ d : Fin 4, d ≠ c → s2.channels d = s1.channels d) ∧
  s2.system_clock_frequency = s1.system_clock_frequency ∧
  s2.interrupt_handler = s1.interrupt_handler ∧
  s2.interrupt_context = s1.interrupt_context

/-- The state every channel is in right after `z80_ctc_init`. -/
def default_channel : Z80_CTC_Channel :=
  { mode := CTC_MODE_TIMER, prescaler := CTC_PRESCALER_16,
    trigger_edge := CTC_TRIGGER_FALLING_EDGE, interrupt_enabled := false,
    interrupt_vector := 0, control_register := 0, time_constant := 0, current_count := 0,
    is_running := false, interrupt_pending := false, last_trigger_state := false,
    trigger_count := 0, expiration_callback := 0, callback_context := 0 }

/-- The public operations that act on an initialised controller. -/
inductive Op where
  | write_control (channel_num control_word : Nat)
  | write_time_constant (channel_num constant : Nat)
  | set_callback (channel_num callback context : Nat)
  | trigger_input (channel_num : Nat) (trigger_state : Bool)
  | clock_tick
  | set_interrupt_vector (channel_num vector : Nat)
  | set_global_interrupt_handler (handler context : Nat)
  | acknowledge_interrupt
  deriving DecidableEq, Repr

/-- The controller after one public operation. -/
def apply_op (H : Z80_CTC_Handlers) (ctc : Z80_CTC) : Op → Z80_CTC
  | Op.write_control n b => z80_ctc_write_control ctc n b
  | Op.write_time_constant n k => z80_ctc_write_time_constant ctc n k
  | Op.set_callback n cb cx => z80_ctc_set_callback ctc n cb cx
  | Op.trigger_input n v => (z80_ctc_trigger_input ctc n v).1
  | Op.clock_tick => (z80_ctc_clock_tick ctc).1
  | Op.set_interrupt_vector n v => z80_ctc_set_interrupt_vector ctc n v
  | Op.set_global_interrupt_handler h cx => z80_ctc_set_global_interrupt_handler ctc h cx
  | Op.acknowledge_interrupt => (z80_ctc_acknowledge_interrupt H ctc).ctc

/-- The controller after a sequence of public operations, first one first. -/
def run_ops (H : Z80_CTC_Handlers) (ctc : Z80_CTC) : List Op → Z80_CTC
  | [] => ctc
  | op :: rest => run_ops H (apply_op H ctc op) rest

/-- The bounds on the count of one channel: an 8-bit time constant, a count of
at most 256, and a count between 1 and the reload value while running. -/
def counts_in_range (ch : Z80_CTC_Channel) : Prop :=
  ch.time_constant < 256 ∧ ch.current_count ≤ 256 ∧
  (ch.is_running = true →
    1 ≤ ch.current_count ∧ ch.current_count ≤ reload ch.time_constant)

/-- One channel before and after a public operation other than a control
write addressed to it: the channel-level bodies of the operations. -/
inductive channel_step : Z80_CTC_Channel → Z80_CTC_Channel → Prop where
  | same (ch : Z80_CTC_Channel) : channel_step ch ch
  | constant (ch : Z80_CTC_Channel) (k : Nat) (hk : k < 256) :
      channel_step ch (write_time_constant_channel ch k)
  | callback (ch : Z80_CTC_Channel) (cb cx : Nat) :
      channel_step ch { ch with expiration_callback := cb, callback_context := cx }
  | trigger (ch : Z80_CTC_Channel) (i : Nat) (v : Bool) :
      channel_step ch (trigger_input_channel i ch v).1
  | tick (ch : Z80_CTC_Channel) (i : Nat) :
      channel_step ch (clock_tick_channel i ch).1
  | vector (ch : Z80_CTC_Channel) (v : Nat) :
      channel_step ch { ch with interrupt_vector := v }
  | acknowledge (ch : Z80_CTC_Channel) :
      channel_step ch { ch with interrupt_pending := false }

/-- The operation is a control write that selects prescaler 16 on a valid
channel whose `trigger_count` has already reached 16. -/
def lowers_below_count (ctc : Z80_CTC) : Op → Bool
  | Op.write_control n b =>
    if h : n % 256 < 4 then
      decide ((b % 256) &&& CTC_CTRL_PRESCALER_MASK = 0) &&
        decide (16 ≤ (ctc.channels ⟨n % 256, h⟩).trigger_count)
    else false
  | _ => false

/-- No operation of the sequence, run from `ctc`, is a control write that
selects prescaler 16 on a channel whose `trigger_count` has reached 16. -/
def prescaler_safe (H : Z80_CTC_Handlers) (ctc : Z80_CTC) : List Op → Bool
  | [] => true
  | op :: rest => !lowers_below_count ctc op && prescaler_safe H (apply_op H ctc op) rest

/-- The prescaler is one of the two enum values and the 8-bit `trigger_count`
is below 256. -/
def trigger_count_byte (ch : Z80_CTC_Channel) : Prop :=
  ch.trigger_count < 256 ∧ (ch.prescaler = 16 ∨ ch.prescaler = 256)

/-- The prescaler is one of the two enum values and `trigger_count` is below it. -/
def below_prescaler (ch : Z80_CTC_Channel) : Prop :=
  ch.trigger_count < ch.prescaler ∧ (ch.prescaler = 16 ∨ ch.prescaler = 256)

/-- Sixteen ticks under prescaler 256 on channel 0, then a control word that
selects prescaler 16. -/
def prescaler_switch_ops : List Op :=
  [Op.write_control 0 0x20, Op.write_time_constant 0 1] ++
    List.replicate 16 Op.clock_tick ++ [Op.write_control 0 0x00]

/-- Two ticks under prescaler 256 on channel 0, then a control word that
selects prescaler 16. -/
def early_switch_ops : List Op :=
  [Op.write_control 0 0x20, Op.write_time_constant 0 1, Op.clock_tick, Op.clock_tick,
    Op.write_control 0 0x00]

/-- Channel 1 as `examples/z80_ctc_example.c` sets it up (lines 54-65):
`write_control(1, 0xC4)`, `set_interrupt_vector(1, 0x20)`,
`write_time_constant(1, 10)`, `set_callback(1, ...)`, after `init(4000000)`. -/
def example_counter : Z80_CTC :=
  z80_ctc_set_callback
    (z80_ctc_write_time_constant
      (z80_ctc_set_interrupt_vector
        (z80_ctc_write_control (z80_ctc_init zero_ctc 4000000) 1 0xC4) 1 0x20) 1 10)
    1 0x4000 0x5001

/-! ## Basic facts about the channel array -/

@[simp]
theorem setChannel_same (ctc : Z80_CTC) (i : Fin 4) (ch : Z80_CTC_Channel) :
    (ctc.setChannel i ch).channels i = ch := by
  simp [Z80_CTC.setChannel]

@[simp]
theorem setChannel_other (ctc : Z80_CTC) (i j : Fin 4) (ch : Z80_CTC_Channel) (h : j ≠ i) :
    (ctc.setChannel i ch).channels j = ctc.channels j := by
  simp [Z80_CTC.setChannel, h]

@[simp]
theorem setChannel_frequency (ctc : Z80_CTC) (i : Fin 4) (ch : Z80_CTC_Channel) :
    (ctc.setChannel i ch).system_clock_frequency = ctc.system_clock_frequency := rfl

@[simp]
theorem setChannel_handler (ctc : Z80_CTC) (i : Fin 4) (ch : Z80_CTC_Channel) :
    (ctc.setChannel i ch).interrupt_handler = ctc.interrupt_handler := rfl

@[simp]
theorem setChannel_context (ctc : Z80_CTC) (i : Fin 4) (ch : Z80_CTC_Channel) :
    (ctc.setChannel i ch).interrupt_context = ctc.interrupt_context := rfl

theorem setChannel_self (ctc : Z80_CTC) (i : Fin 4) :
    ctc.setChannel i (ctc.channels i) = ctc := by
  ext j
  · by_cases h : j = i
    · subst h; simp
    · simp [h]
  all_goals rfl

theorem write_control_valid (ctc : Z80_CTC) (c b : Nat) (hc : c < 4) (hb : b < 256) :
    z80_ctc_write_control ctc c b =
      ctc.setChannel ⟨c, hc⟩ (write_control_channel (ctc.channels ⟨c, hc⟩) b) := by
  have h1 : c % 256 = c := Nat.mod_eq_of_lt (by omega)
  have h2 : b % 256 = b := Nat.mod_eq_of_lt hb
  have h3 : ¬ c > 3 := by omega
  simp [z80_ctc_write_control, h1, h2, h3]

theorem write_time_constant_valid (ctc : Z80_CTC) (c k : Nat) (hc : c < 4) (hk : k < 256) :
    z80_ctc_write_time_constant ctc c k =
      ctc.setChannel ⟨c, hc⟩ (write_time_constant_channel (ctc.channels ⟨c, hc⟩) k) := by
  have h1 : c % 256 = c := Nat.mod_eq_of_lt (by omega)
  have h2 : k % 256 = k := Nat.mod_eq_of_lt hk
  have h3 : ¬ c > 3 := by omega
  simp [z80_ctc_write_time_constant, h1, h2, h3]

theorem trigger_input_valid (ctc : Z80_CTC) (c : Nat) (v : Bool) (hc : c < 4) :
    z80_ctc_trigger_input ctc c v =
      (ctc.setChannel ⟨c, hc⟩ (trigger_input_channel c (ctc.channels ⟨c, hc⟩) v).1,
        (trigger_input_channel c (ctc.channels ⟨c, hc⟩) v).2) := by
  have h1 : c % 256 = c := Nat.mod_eq_of_lt (by omega)
  have h3 : ¬ c > 3 := by omega
  simp [z80_ctc_trigger_input, h1, h3]

/-! ## Control word and time constant writes -/

/-- C1: after `z80_ctc_write_time_constant(c, k)` with `c` in `0..3` and `k` a
byte, channel `c` has `time_constant = k`, `current_count = 256` if `k = 0` and
`k` otherwise, `is_running = true` and `interrupt_pending = false`. -/
theorem write_time_constant_arms (ctc : Z80_CTC) (c k : Nat) (hc : c < 4) (hk : k < 256) :
    ((z80_ctc_write_time_constant ctc c k).channels ⟨c, hc⟩).time_constant = k ∧
    ((z80_ctc_write_time_constant ctc c k).channels ⟨c, hc⟩).current_count =
      (if k = 0 then 256 else k) ∧
    ((z80_ctc_write_time_constant ctc c k).channels ⟨c, hc⟩).is_running = true ∧
    ((z80_ctc_write_time_constant ctc c k).channels ⟨c, hc⟩).interrupt_pending = false := by
  rw [write_time_constant_valid ctc c k hc hk]
  simp [write_time_constant_channel]

/-- Witness of C1: time constant `0` written to channel 2 of a zeroed
controller loads the count 256. -/
theorem write_time_constant_arms_witness :
    (2 < 4 ∧ 0 < 256) ∧
    ((z80_ctc_write_time_constant zero_ctc 2 0).channels 2).time_constant = 0 ∧
    ((z80_ctc_write_time_constant zero_ctc 2 0).channels 2).current_count = 256 ∧
    ((z80_ctc_write_time_constant zero_ctc 2 0).channels 2).is_running = true ∧
    ((z80_ctc_write_time_constant zero_ctc 2 0).channels 2).interrupt_pending = false :=
  ⟨by decide, write_time_constant_arms zero_ctc 2 0 (by decide) (by decide)⟩

set_option maxRecDepth 100000 in
theorem mask_tests :
    ∀ b < 256,
      (b &&& CTC_CTRL_INTERRUPT_MASK ≠ 0 ↔ b.testBit 7 = true) ∧
      (b &&& CTC_CTRL_MODE_MASK ≠ 0 ↔ b.testBit 6 = true) ∧
      (b &&& CTC_CTRL_PRESCALER_MASK ≠ 0 ↔ b.testBit 5 = true) ∧
      (b &&& CTC_CTRL_TRIGGER_EDGE_MASK ≠ 0 ↔ b.testBit 4 = true) ∧
      (b &&& CTC_CTRL_TIME_CONSTANT_MASK ≠ 0 ↔ b.testBit 2 = true) ∧
      (b &&& CTC_CTRL_RESET_MASK ≠ 0 ↔ b.testBit 1 = true) := by
  decide

theorem write_control_channel_eq (channel : Z80_CTC_Channel) (b : Nat) (hb : b < 256) :
    write_control_channel channel b = control_decoded channel b := by
  obtain ⟨h7, h6, h5, h4, h2, h1⟩ := mask_tests b hb
  unfold write_control_channel control_decoded
  simp only [h7, h6, h5, h4, h2, h1, CTC_PRESCALER_16, CTC_PRESCALER_256]
  cases b.testBit 7 <;> cases b.testBit 6 <;> cases b.testBit 5 <;> cases b.testBit 4 <;>
    cases b.testBit 2 <;> cases b.testBit 1 <;> simp

/-- C2: after `z80_ctc_write_control(c, b)` with `c` in `0..3` and `b` a byte,
channel `c` has `control_register = b`, `interrupt_enabled` = bit 7 of `b`,
`mode` Counter iff bit 6, `prescaler` 256 iff bit 5 (16 otherwise) and
`trigger_edge` Rising iff bit 4, whatever the channel held before; and a byte
`b2` that differs from `b` at most in bits 3 and 0 leaves the same controller
but for `control_register` of channel `c`. -/
theorem write_control_decodes (ctc : Z80_CTC) (c b : Nat) (hc : c < 4) (hb : b < 256) :
    ((z80_ctc_write_control ctc c b).channels ⟨c, hc⟩).control_register = b ∧
    ((z80_ctc_write_control ctc c b).channels ⟨c, hc⟩).interrupt_enabled = b.testBit 7 ∧
    ((z80_ctc_write_control ctc c b).channels ⟨c, hc⟩).mode =
      (if b.testBit 6 then CTC_MODE_COUNTER else CTC_MODE_TIMER) ∧
    ((z80_ctc_write_control ctc c b).channels ⟨c, hc⟩).prescaler =
      (if b.testBit 5 then 256 else 16) ∧
    ((z80_ctc_write_control ctc c b).channels ⟨c, hc⟩).trigger_edge =
      (if b.testBit 4 then CTC_TRIGGER_RISING_EDGE else CTC_TRIGGER_FALLING_EDGE) ∧
    (∀ b2 : Nat, b2 < 256 → (∀ j : Nat, j ≠ 3 → j ≠ 0 → b2.testBit j = b.testBit j) →
      z80_ctc_write_control ctc c b2 =
        (z80_ctc_write_control ctc c b).setChannel ⟨c, hc⟩
          { (z80_ctc_write_control ctc c b).channels ⟨c, hc⟩ with control_register := b2 }) := by
  rw [write_control_valid ctc c b hc hb, write_control_channel_eq _ b hb]
  refine ⟨by simp [control_decoded], by simp [control_decoded], by simp [control_decoded],
    by simp [control_decoded], by simp [control_decoded], ?_⟩
  intro b2 hb2 hbits
  rw [write_control_valid ctc c b2 hc hb2, write_control_channel_eq _ b2 hb2]
  have e7 := hbits 7 (by decide) (by decide)
  have e6 := hbits 6 (by decide) (by decide)
  have e5 := hbits 5 (by decide) (by decide)
  have e4 := hbits 4 (by decide) (by decide)
  have e2 := hbits 2 (by decide) (by decide)
  have e1 := hbits 1 (by decide) (by decide)
  ext j
  · by_cases h : j = ⟨c, hc⟩
    · subst h
      simp [control_decoded, e7, e6, e5, e4, e2, e1]
    · simp [h]
  all_goals rfl

theorem bits_0xCD_0xC4 :
    ∀ j : Nat, j ≠ 3 → j ≠ 0 → (0xCD).testBit j = (0xC4).testBit j := by
  intro j h3 h0
  by_cases hj : j < 8
  · interval_cases j <;> first | rfl | exact absurd rfl h3 | exact absurd rfl h0
  · have h8 : 2 ^ 8 ≤ 2 ^ j := Nat.pow_le_pow_right (by decide) (by omega)
    rw [Nat.testBit_lt_two_pow (by omega : 0xCD < 2 ^ j),
      Nat.testBit_lt_two_pow (by omega : 0xC4 < 2 ^ j)]

/-- Witness of C2: channel 1 of a zeroed controller, the control word `0xC4`
of the example, and the word `0xCD` that differs from it in bits 3 and 0. -/
theorem write_control_decodes_witness :
    (1 < 4 ∧ 0xC4 < 256 ∧ 0xCD < 256) ∧
    ((z80_ctc_write_control zero_ctc 1 0xC4).channels 1).control_register = 0xC4 ∧
    ((z80_ctc_write_control zero_ctc 1 0xC4).channels 1).interrupt_enabled = true ∧
    ((z80_ctc_write_control zero_ctc 1 0xC4).channels 1).mode = CTC_MODE_COUNTER ∧
    ((z80_ctc_write_control zero_ctc 1 0xC4).channels 1).prescaler = 16 ∧
    ((z80_ctc_write_control zero_ctc 1 0xC4).channels 1).trigger_edge
      = CTC_TRIGGER_FALLING_EDGE ∧
    z80_ctc_write_control zero_ctc 1 0xCD =
      (z80_ctc_write_control zero_ctc 1 0xC4).setChannel 1
        { (z80_ctc_write_control zero_ctc 1 0xC4).channels 1 with control_register := 0xCD } := by
  have h := write_control_decodes zero_ctc 1 0xC4 (by decide) (by decide)
  exact ⟨by decide, h.1, h.2.1, h.2.2.1, h.2.2.2.1, h.2.2.2.2.1,
    h.2.2.2.2.2 0xCD (by decide) bits_0xCD_0xC4⟩

/-- C3: `z80_ctc_write_control(c, b)` with `c` in `0..3` and `b` a byte: if
bit 1 of `b` is set, channel `c` ends with `current_count = 0`,
`is_running = false` and `interrupt_pending = false`; if bit 2 is set it ends
with `is_running = false`; if neither is set, `current_count`, `is_running`
and `interrupt_pending` are what they were. -/
theorem write_control_run_state (ctc : Z80_CTC) (c b : Nat) (hc : c < 4) (hb : b < 256) :
    (b.testBit 1 = true →
      ((z80_ctc_write_control ctc c b).channels ⟨c, hc⟩).current_count = 0 ∧
      ((z80_ctc_write_control ctc c b).channels ⟨c, hc⟩).is_running = false ∧
      ((z80_ctc_write_control ctc c b).channels ⟨c, hc⟩).interrupt_pending = false) ∧
    (b.testBit 2 = true →
      ((z80_ctc_write_control ctc c b).channels ⟨c, hc⟩).is_running = false) ∧
    (b.testBit 1 = false → b.testBit 2 = false →
      ((z80_ctc_write_control ctc c b).channels ⟨c, hc⟩).current_count
        = (ctc.channels ⟨c, hc⟩).current_count ∧
      ((z80_ctc_write_control ctc c b).channels ⟨c, hc⟩).is_running
        = (ctc.channels ⟨c, hc⟩).is_running ∧
      ((z80_ctc_write_control ctc c b).channels ⟨c, hc⟩).interrupt_pending
        = (ctc.channels ⟨c, hc⟩).interrupt_pending) := by
  rw [write_control_valid ctc c b hc hb, write_control_channel_eq _ b hb]
  refine ⟨?_, ?_, ?_⟩
  · intro h1
    simp [control_decoded, h1]
  · intro h2
    simp [control_decoded, h2]
  · intro h1 h2
    simp [control_decoded, h1, h2]

/-- Witness of C3: on a channel armed with time constant 100, the word `0x86`
(bits 1 and 2 set) stops and clears it, the word `0x80` leaves it counting. -/
theorem write_control_run_state_witness :
    (0 < 4 ∧ 0x86 < 256 ∧ (0x86).testBit 1 = true ∧ (0x86).testBit 2 = true ∧
      (0x80).testBit 1 = false ∧ (0x80).testBit 2 = false) ∧
    ((z80_ctc_write_control (z80_ctc_write_time_constant zero_ctc 0 100) 0 0x86).channels
      0).current_count = 0 ∧
    ((z80_ctc_write_control (z80_ctc_write_time_constant zero_ctc 0 100) 0 0x86).channels
      0).is_running = false ∧
    ((z80_ctc_write_control (z80_ctc_write_time_constant zero_ctc 0 100) 0 0x80).channels
      0).current_count
      = ((z80_ctc_write_time_constant zero_ctc 0 100).channels 0).current_count :=
  ⟨by decide,
    ((write_control_run_state (z80_ctc_write_time_constant zero_ctc 0 100) 0 0x86
      (by decide) (by decide)).1 (by decide)).1,
    (write_control_run_state (z80_ctc_write_time_constant zero_ctc 0 100) 0 0x86
      (by decide) (by decide)).2.1 (by decide),
    ((write_control_run_state (z80_ctc_write_time_constant zero_ctc 0 100) 0 0x80
      (by decide) (by decide)).2.2 (by decide) (by decide)).1⟩

/-! ## Closed form of the iterated counting step -/

theorem reload_pos (k : Nat) : 1 ≤ reload k := by
  unfold reload
  split <;> omega

theorem reload_le (k : Nat) (hk : k < 256) : reload k ≤ 256 := by
  unfold reload
  split <;> omega

theorem count_down_reload (i : Nat) (ch : Z80_CTC_Channel) (h : ch.current_count ≤ 1) :
    count_down i ch =
      ({ ch with
          current_count := reload ch.time_constant
          interrupt_pending := ch.interrupt_enabled || ch.interrupt_pending },
        Event.decrement i :: Event.zero_count i ::
          (if ch.expiration_callback ≠ 0 then
            [Event.callback i ch.expiration_callback ch.callback_context]
           else [])) := by
  have h01 : ch.current_count = 0 ∨ ch.current_count = 1 := by omega
  rcases h01 with h0 | h1
  · cases he : ch.interrupt_enabled <;> simp [count_down, reload, h0, he]
  · cases he : ch.interrupt_enabled <;> simp [count_down, reload, h1, he]

theorem count_down_step (i : Nat) (ch : Z80_CTC_Channel) (h : 2 ≤ ch.current_count) :
    count_down i ch =
      ({ ch with current_count := ch.current_count - 1 }, [Event.decrement i]) := by
  have h1 : 0 < ch.current_count := by omega
  have h2 : ¬ ch.current_count - 1 = 0 := by omega
  simp [count_down, h1, h2]

theorem succ_mod_wrap (m R : Nat) (h : m % R + 1 = R) :
    (m + 1) % R = 0 ∧ (m + 1) / R = m / R + 1 := by
  have hR : 0 < R := by omega
  have hm : m + 1 = R * (m / R + 1) := by
    have := Nat.div_add_mod m R
    rw [Nat.mul_add, Nat.mul_one]
    omega
  rw [hm]
  exact ⟨Nat.mul_mod_right _ _, Nat.mul_div_cancel_left _ hR⟩

theorem succ_mod_step (m R : Nat) (h : m % R + 1 < R) :
    (m + 1) % R = m % R + 1 ∧ (m + 1) / R = m / R := by
  have hR : 0 < R := by omega
  have hm : m + 1 = R * (m / R) + (m % R + 1) := by
    have := Nat.div_add_mod m R
    omega
  rw [hm]
  refine ⟨?_, ?_⟩
  · rw [Nat.mul_add_mod]
    exact Nat.mod_eq_of_lt h
  · rw [Nat.mul_add_div hR, Nat.div_eq_of_lt h, Nat.add_zero]

theorem count_downs_closed (i : Nat) (ch : Z80_CTC_Channel) (d : Nat)
    (hC1 : 1 ≤ ch.current_count) (hCR : ch.current_count ≤ reload ch.time_constant) :
    (count_downs i ch d).1 = counted ch d ∧
    decrements i (count_downs i ch d).2 = d ∧
    zero_crossings i (count_downs i ch d).2 =
      (reload ch.time_constant - ch.current_count + d) / reload ch.time_constant ∧
    callback_calls i ch.expiration_callback ch.callback_context (count_downs i ch d).2 =
      (if ch.expiration_callback = 0 then 0
       else (reload ch.time_constant - ch.current_count + d) / reload ch.time_constant) := by
  induction d with
  | zero =>
    have hlt : reload ch.time_constant - ch.current_count < reload ch.time_constant := by omega
    have hnot : ¬ ch.current_count ≤ 0 := by omega
    refine ⟨?_, ?_, ?_, ?_⟩
    · have hsub : reload ch.time_constant -
          (reload ch.time_constant - ch.current_count) = ch.current_count := by omega
      simp [count_downs, counted, Nat.mod_eq_of_lt hlt, hsub, hnot]
    · simp [count_downs, decrements]
    · simp [count_downs, zero_crossings, Nat.div_eq_of_lt hlt]
    · simp [count_downs, callback_calls, Nat.div_eq_of_lt hlt]
  | succ d ih =>
    obtain ⟨ih1, ih2, ih3, ih4⟩ := ih
    have hmod : (reload ch.time_constant - ch.current_count + d) % reload ch.time_constant
        < reload ch.time_constant := Nat.mod_lt _ (reload_pos _)
    by_cases hw : (reload ch.time_constant - ch.current_count + d) % reload ch.time_constant + 1
        = reload ch.time_constant
    · obtain ⟨hm, hq⟩ := succ_mod_wrap _ _ hw
      have hge : ch.current_count ≤ d + 1 := by
        by_contra hlt
        have hsmall : reload ch.time_constant - ch.current_count + d
            < reload ch.time_constant := by omega
        rw [Nat.mod_eq_of_lt hsmall] at hw
        omega
      have hcnt : (counted ch d).current_count ≤ 1 := by
        simp only [counted]
        omega
      have hstep := count_down_reload i (counted ch d) hcnt
      simp only [count_downs, ih1, hstep]
      rw [Nat.add_assoc] at hm hq
      refine ⟨?_, ?_, ?_, ?_⟩
      · simp only [counted, hm]
        cases ch.interrupt_enabled <;> cases ch.interrupt_pending <;> simp [hge]
      · simp only [decrements] at ih2 ⊢
        rw [List.count_append, ih2]
        by_cases hcb : ch.expiration_callback = 0 <;> simp [counted, hcb]
      · simp only [zero_crossings] at ih3 ⊢
        rw [List.count_append, ih3, hq]
        by_cases hcb : ch.expiration_callback = 0 <;> simp [counted, hcb]
      · simp only [callback_calls] at ih4 ⊢
        rw [List.count_append, ih4, hq]
        by_cases hcb : ch.expiration_callback = 0 <;> simp [counted, hcb]
    · have hw2 : (reload ch.time_constant - ch.current_count + d) % reload ch.time_constant + 1
          < reload ch.time_constant := by omega
      obtain ⟨hm, hq⟩ := succ_mod_step _ _ hw2
      have hpend : decide (ch.current_count ≤ d + 1) = decide (ch.current_count ≤ d) := by
        by_cases hle : ch.current_count ≤ d
        · have : ch.current_count ≤ d + 1 := by omega
          simp [hle, this]
        · have hne : ¬ ch.current_count ≤ d + 1 := by
            intro hle1
            have heq : reload ch.time_constant - ch.current_count + d + 1
                = reload ch.time_constant := by omega
            have h0 : (reload ch.time_constant - ch.current_count + d + 1)
                % reload ch.time_constant = 0 := by rw [heq]; exact Nat.mod_self _
            omega
          simp [hle, hne]
      have hcnt : 2 ≤ (counted ch d).current_count := by
        simp only [counted]
        omega
      have hstep := count_down_step i (counted ch d) hcnt
      simp only [count_downs, ih1, hstep]
      rw [Nat.add_assoc] at hm hq
      refine ⟨?_, ?_, ?_, ?_⟩
      · simp only [counted, hm, hpend]
        congr 1
      · simp only [decrements] at ih2 ⊢
        rw [List.count_append, ih2]
        simp
      · simp only [zero_crossings] at ih3 ⊢
        rw [List.count_append, ih3, hq]
        simp
      · simp only [callback_calls] at ih4 ⊢
        rw [List.count_append, ih4, hq]
        simp

/-! ## A clock tick acts on each channel separately -/

theorem count_down_source (i : Nat) (ch : Z80_CTC_Channel) :
    ∀ e ∈ (count_down i ch).2, e.channel_of = i := by
  intro e he
  by_cases h : ch.current_count ≤ 1
  · rw [count_down_reload i ch h] at he
    by_cases hcb : ch.expiration_callback = 0
    · simp only [hcb, ne_eq, not_true_eq_false, ↓reduceIte, List.mem_cons, List.not_mem_nil,
        or_false] at he
      rcases he with h | h <;> simp [h, Event.channel_of]
    · simp only [hcb, ne_eq, not_false_eq_true, ↓reduceIte, List.mem_cons, List.not_mem_nil,
        or_false] at he
      rcases he with h | h | h <;> simp [h, Event.channel_of]
  · rw [count_down_step i ch (by omega)] at he
    simp only [List.mem_singleton] at he
    simp [he, Event.channel_of]

theorem clock_tick_channel_idle (i : Nat) (ch : Z80_CTC_Channel)
    (h : ch.mode ≠ CTC_MODE_TIMER ∨ ch.is_running = false) :
    clock_tick_channel i ch = (ch, []) := by
  simp only [clock_tick_channel, h, ↓reduceIte]

theorem clock_tick_channel_wait (i : Nat) (ch : Z80_CTC_Channel)
    (hm : ch.mode = CTC_MODE_TIMER) (hr : ch.is_running = true)
    (hp : (ch.trigger_count + 1) % 256 < ch.prescaler) :
    clock_tick_channel i ch =
      ({ ch with trigger_count := (ch.trigger_count + 1) % 256 }, []) := by
  simp [clock_tick_channel, hm, hr, hp]

theorem clock_tick_channel_fire (i : Nat) (ch : Z80_CTC_Channel)
    (hm : ch.mode = CTC_MODE_TIMER) (hr : ch.is_running = true)
    (hp : ¬ (ch.trigger_count + 1) % 256 < ch.prescaler) :
    clock_tick_channel i ch = count_down i { ch with trigger_count := 0 } := by
  simp [clock_tick_channel, hm, hr, hp]

theorem clock_tick_channel_source (i : Nat) (ch : Z80_CTC_Channel) :
    ∀ e ∈ (clock_tick_channel i ch).2, e.channel_of = i := by
  intro e he
  by_cases h : ch.mode ≠ CTC_MODE_TIMER ∨ ch.is_running = false
  · rw [clock_tick_channel_idle i ch h] at he
    simp at he
  · have hm : ch.mode = CTC_MODE_TIMER := by
      by_contra hne
      exact h (Or.inl hne)
    have hr : ch.is_running = true := by
      cases hrun : ch.is_running
      · exact absurd (Or.inr hrun) h
      · rfl
    by_cases hp : (ch.trigger_count + 1) % 256 < ch.prescaler
    · rw [clock_tick_channel_wait i ch hm hr hp] at he
      simp at he
    · rw [clock_tick_channel_fire i ch hm hr hp] at he
      exact count_down_source i _ e he

theorem count_other_channel (i : Nat) (ch : Z80_CTC_Channel) (e : Event)
    (h : e.channel_of ≠ i) : (clock_tick_channel i ch).2.count e = 0 := by
  apply List.count_eq_zero_of_not_mem
  intro hmem
  exact h (clock_tick_channel_source i ch e hmem)

theorem clock_tick_unfold (ctc : Z80_CTC) :
    z80_ctc_clock_tick ctc =
      ({ ctc with channels := fun j => (clock_tick_channel j.val (ctc.channels j)).1 },
        (clock_tick_channel 0 (ctc.channels 0)).2 ++ (clock_tick_channel 1 (ctc.channels 1)).2 ++
        (clock_tick_channel 2 (ctc.channels 2)).2 ++ (clock_tick_channel 3 (ctc.channels 3)).2) := by
  have h10 : (1 : Fin 4) ≠ 0 := by decide
  have h20 : (2 : Fin 4) ≠ 0 := by decide
  have h21 : (2 : Fin 4) ≠ 1 := by decide
  have h30 : (3 : Fin 4) ≠ 0 := by decide
  have h31 : (3 : Fin 4) ≠ 1 := by decide
  have h32 : (3 : Fin 4) ≠ 2 := by decide
  have v3 : ((3 : Fin 4) : Nat) = 3 := rfl
  simp only [z80_ctc_clock_tick, channel_indices, List.foldl, List.nil_append]
  apply Prod.ext
  · ext j
    · fin_cases j <;> simp [Z80_CTC.setChannel, v3]
    all_goals rfl
  · simp [setChannel_other, h10, h20, h21, h30, h31, h32, v3]

theorem clock_tick_channels (ctc : Z80_CTC) (j : Fin 4) :
    (z80_ctc_clock_tick ctc).1.channels j = (clock_tick_channel j.val (ctc.channels j)).1 := by
  rw [clock_tick_unfold]

theorem clock_tick_count (ctc : Z80_CTC) (j : Fin 4) (e : Event) (he : e.channel_of = j.val) :
    (z80_ctc_clock_tick ctc).2.count e = (clock_tick_channel j.val (ctc.channels j)).2.count e := by
  rw [clock_tick_unfold]
  simp only [List.count_append]
  fin_cases j
  · rw [count_other_channel 1 _ e (by rw [he]; decide),
      count_other_channel 2 _ e (by rw [he]; decide),
      count_other_channel 3 _ e (by rw [he]; decide)]
    rfl
  · rw [count_other_channel 0 _ e (by rw [he]; decide),
      count_other_channel 2 _ e (by rw [he]; decide),
      count_other_channel 3 _ e (by rw [he]; decide)]
    simp
  · rw [count_other_channel 0 _ e (by rw [he]; decide),
      count_other_channel 1 _ e (by rw [he]; decide),
      count_other_channel 3 _ e (by rw [he]; decide)]
    simp
  · rw [count_other_channel 0 _ e (by rw [he]; decide),
      count_other_channel 1 _ e (by rw [he]; decide),
      count_other_channel 2 _ e (by rw [he]; decide)]
    simp

theorem clock_ticks_channels (ctc : Z80_CTC) (j : Fin 4) (n : Nat) :
    (clock_ticks ctc n).1.channels j = (channel_ticks j.val (ctc.channels j) n).1 := by
  induction n with
  | zero => rfl
  | succ n ih => simp only [clock_ticks, channel_ticks, clock_tick_channels, ih]

theorem clock_ticks_count (ctc : Z80_CTC) (j : Fin 4) (e : Event) (he : e.channel_of = j.val)
    (n : Nat) :
    (clock_ticks ctc n).2.count e = (channel_ticks j.val (ctc.channels j) n).2.count e := by
  induction n with
  | zero => rfl
  | succ n ih =>
    simp only [clock_ticks, channel_ticks, List.count_append, ih,
      clock_tick_count _ j e he, clock_ticks_channels]

theorem clock_ticks_fields (ctc : Z80_CTC) (n : Nat) :
    (clock_ticks ctc n).1.system_clock_frequency = ctc.system_clock_frequency ∧
    (clock_ticks ctc n).1.interrupt_handler = ctc.interrupt_handler ∧
    (clock_ticks ctc n).1.interrupt_context = ctc.interrupt_context := by
  induction n with
  | zero => exact ⟨rfl, rfl, rfl⟩
  | succ n ih =>
    simp only [clock_ticks, clock_tick_unfold]
    exact ih

theorem count_down_frame (i : Nat) (ch : Z80_CTC_Channel) :
    config_of (count_down i ch).1 = config_of ch := by
  by_cases h : ch.current_count ≤ 1
  · rw [count_down_reload i ch h]
    rfl
  · rw [count_down_step i ch (by omega)]
    rfl

theorem count_downs_frame (i : Nat) (ch : Z80_CTC_Channel) (d : Nat) :
    config_of (count_downs i ch d).1 = config_of ch := by
  induction d with
  | zero => rfl
  | succ d ih =>
    simp only [count_downs]
    rw [count_down_frame, ih]

theorem count_down_trigger_count (i : Nat) (ch : Z80_CTC_Channel) (x : Nat) :
    count_down i { ch with trigger_count := x } =
      ({ (count_down i ch).1 with trigger_count := x }, (count_down i ch).2) := by
  by_cases h : ch.current_count ≤ 1
  · rw [count_down_reload i ch h, count_down_reload i { ch with trigger_count := x } h]
  · rw [count_down_step i ch (by omega),
      count_down_step i { ch with trigger_count := x } (by simp only; omega)]

/-- A Timer-mode, running channel whose prescaler is 256 only moves its 8-bit
`trigger_count`: the test `trigger_count < prescaler` never fails. -/
theorem channel_ticks_prescaler_256 (i : Nat) (ch : Z80_CTC_Channel) (n : Nat)
    (hm : ch.mode = CTC_MODE_TIMER) (hr : ch.is_running = true)
    (hp : ch.prescaler = 256) (ht : ch.trigger_count < 256) :
    channel_ticks i ch n =
      ({ ch with trigger_count := (ch.trigger_count + n) % 256 }, []) := by
  induction n with
  | zero =>
    simp only [channel_ticks, Nat.add_zero, Nat.mod_eq_of_lt ht]
  | succ n ih =>
    simp only [channel_ticks, ih]
    have hlt : ((ch.trigger_count + n) % 256 + 1) % 256 < 256 := Nat.mod_lt _ (by decide)
    have hstep := clock_tick_channel_wait i
      { ch with trigger_count := (ch.trigger_count + n) % 256 } hm hr (hp ▸ hlt)
    rw [hstep]
    have hsucc : ((ch.trigger_count + n) % 256 + 1) % 256 = (ch.trigger_count + (n + 1)) % 256 := by
      omega
    simp only [hsucc, List.append_nil]

/-- A Timer-mode, running channel whose prescaler is 16 runs the counting step
once every 16 ticks. -/
theorem channel_ticks_prescaler_16 (i : Nat) (ch : Z80_CTC_Channel) (n : Nat)
    (hm : ch.mode = CTC_MODE_TIMER) (hr : ch.is_running = true)
    (hp : ch.prescaler = 16) (ht : ch.trigger_count < 16) :
    channel_ticks i ch n =
      ({ (count_downs i ch ((ch.trigger_count + n) / 16)).1 with
          trigger_count := (ch.trigger_count + n) % 16 },
        (count_downs i ch ((ch.trigger_count + n) / 16)).2) := by
  induction n with
  | zero =>
    have h0 : (ch.trigger_count + 0) / 16 = 0 := by omega
    have h1 : (ch.trigger_count + 0) % 16 = ch.trigger_count := by omega
    simp only [channel_ticks, h0, h1, count_downs]
  | succ n ih =>
    simp only [channel_ticks, ih]
    have hfr := count_downs_frame i ch ((ch.trigger_count + n) / 16)
    have hm2 : (count_downs i ch ((ch.trigger_count + n) / 16)).1.mode = CTC_MODE_TIMER :=
      (congrArg Z80_CTC_Channel.mode hfr).trans hm
    have hr2 : (count_downs i ch ((ch.trigger_count + n) / 16)).1.is_running = true :=
      (congrArg Z80_CTC_Channel.is_running hfr).trans hr
    have hp2 : (count_downs i ch ((ch.trigger_count + n) / 16)).1.prescaler = 16 :=
      (congrArg Z80_CTC_Channel.prescaler hfr).trans hp
    by_cases hw : (ch.trigger_count + n) % 16 + 1 < 16
    · have hd : (ch.trigger_count + (n + 1)) / 16 = (ch.trigger_count + n) / 16 := by omega
      have hmod : (ch.trigger_count + (n + 1)) % 16 = (ch.trigger_count + n) % 16 + 1 := by
        omega
      have h256 : ((ch.trigger_count + n) % 16 + 1) % 256 = (ch.trigger_count + n) % 16 + 1 := by
        omega
      have hstep := clock_tick_channel_wait i
        { (count_downs i ch ((ch.trigger_count + n) / 16)).1 with
          trigger_count := (ch.trigger_count + n) % 16 } hm2 hr2
        (by simp only [hp2, h256]; exact hw)
      rw [hstep]
      simp only [hd, hmod, h256, List.append_nil]
    · have hd : (ch.trigger_count + (n + 1)) / 16 = (ch.trigger_count + n) / 16 + 1 := by omega
      have hmod : (ch.trigger_count + (n + 1)) % 16 = 0 := by omega
      have h256 : ((ch.trigger_count + n) % 16 + 1) % 256 = (ch.trigger_count + n) % 16 + 1 := by
        omega
      have hstep := clock_tick_channel_fire i
        { (count_downs i ch ((ch.trigger_count + n) / 16)).1 with
          trigger_count := (ch.trigger_count + n) % 16 } hm2 hr2
        (by simp only [hp2, h256]; exact hw)
      rw [hstep]
      simp only [hd, hmod, count_downs]
      have hcd := count_down_trigger_count i (count_downs i ch ((ch.trigger_count + n) / 16)).1 0
      rw [hcd]

/-! ## Priority scan of the acknowledge operation -/

theorem acknowledge_loop_hit (H : Z80_CTC_Handlers) (ctc : Z80_CTC) (i : Fin 4)
    (rest : List (Fin 4)) (h : requests ctc i = true) :
    acknowledge_loop H ctc (i :: rest) = acknowledge_at H ctc i := by
  unfold requests at h
  simp only [acknowledge_loop, h, ↓reduceIte, acknowledge_at, setChannel_handler,
    setChannel_context]

theorem acknowledge_loop_miss (H : Z80_CTC_Handlers) (ctc : Z80_CTC) (i : Fin 4)
    (rest : List (Fin 4)) (h : requests ctc i = false) :
    acknowledge_loop H ctc (i :: rest) = acknowledge_loop H ctc rest := by
  unfold requests at h
  simp [acknowledge_loop, h]

theorem has_pending_loop_hit (ctc : Z80_CTC) (i : Fin 4) (rest : List (Fin 4))
    (h : requests ctc i = true) : has_pending_loop ctc (i :: rest) = true := by
  unfold requests at h
  simp [has_pending_loop, h]

theorem has_pending_loop_miss (ctc : Z80_CTC) (i : Fin 4) (rest : List (Fin 4))
    (h : requests ctc i = false) :
    has_pending_loop ctc (i :: rest) = has_pending_loop ctc rest := by
  unfold requests at h
  simp [has_pending_loop, h]

theorem has_pending_loop_eq_any (ctc : Z80_CTC) (l : List (Fin 4)) :
    has_pending_loop ctc l = l.any (requests ctc) := by
  induction l with
  | nil => rfl
  | cons i rest ih =>
    cases h : requests ctc i
    · rw [has_pending_loop_miss ctc i rest h, ih]
      simp [h]
    · rw [has_pending_loop_hit ctc i rest h]
      simp [h]

theorem has_pending_false_iff (ctc : Z80_CTC) :
    z80_ctc_has_pending_interrupt ctc = false ↔ ∀ i : Fin 4, requests ctc i = false := by
  unfold z80_ctc_has_pending_interrupt
  rw [has_pending_loop_eq_any]
  constructor
  · intro h i
    have hall := List.any_eq_false.mp h
    have hi : i ∈ channel_indices := by
      fin_cases i <;> simp [channel_indices]
    simpa using hall i hi
  · intro h
    apply List.any_eq_false.mpr
    intro i _
    simp [h i]

theorem acknowledge_none (H : Z80_CTC_Handlers) (ctc : Z80_CTC)
    (h : ∀ i : Fin 4, requests ctc i = false) :
    z80_ctc_acknowledge_interrupt H ctc = ⟨0, ctc, []⟩ := by
  unfold z80_ctc_acknowledge_interrupt channel_indices
  rw [acknowledge_loop_miss H ctc 0 _ (h 0), acknowledge_loop_miss H ctc 1 _ (h 1),
    acknowledge_loop_miss H ctc 2 _ (h 2), acknowledge_loop_miss H ctc 3 _ (h 3)]
  rfl

theorem acknowledge_first (H : Z80_CTC_Handlers) (ctc : Z80_CTC) (i : Fin 4)
    (hi : requests ctc i = true) (hlow : ∀ j : Fin 4, j < i → requests ctc j = false) :
    z80_ctc_acknowledge_interrupt H ctc = acknowledge_at H ctc i := by
  unfold z80_ctc_acknowledge_interrupt channel_indices
  fin_cases i
  · exact acknowledge_loop_hit H ctc 0 _ hi
  · rw [acknowledge_loop_miss H ctc 0 _ (hlow 0 (by decide))]
    exact acknowledge_loop_hit H ctc 1 _ hi
  · rw [acknowledge_loop_miss H ctc 0 _ (hlow 0 (by decide)),
      acknowledge_loop_miss H ctc 1 _ (hlow 1 (by decide))]
    exact acknowledge_loop_hit H ctc 2 _ hi
  · rw [acknowledge_loop_miss H ctc 0 _ (hlow 0 (by decide)),
      acknowledge_loop_miss H ctc 1 _ (hlow 1 (by decide)),
      acknowledge_loop_miss H ctc 2 _ (hlow 2 (by decide))]
    exact acknowledge_loop_hit H ctc 3 _ hi

theorem requests_cleared (ctc : Z80_CTC) (i j : Fin 4) :
    requests (ctc.setChannel i { ctc.channels i with interrupt_pending := false }) j =
      (if j = i then false else requests ctc j) := by
  by_cases h : j = i
  · subst h
    simp [requests]
  · simp [requests, h]

theorem acknowledge_at_ctc (H : Z80_CTC_Handlers) (ctc : Z80_CTC) (i : Fin 4) :
    (acknowledge_at H ctc i).ctc =
      ctc.setChannel i { ctc.channels i with interrupt_pending := false } := by
  unfold acknowledge_at
  split <;> rfl

theorem pending_count_eq (ctc : Z80_CTC) :
    pending_count ctc =
      (requests ctc 0).toNat + (requests ctc 1).toNat + (requests ctc 2).toNat +
        (requests ctc 3).toNat := by
  unfold pending_count channel_indices
  simp only [List.countP_cons, List.countP_nil]
  cases h0 : requests ctc 0 <;> cases h1 : requests ctc 1 <;> cases h2 : requests ctc 2 <;>
    cases h3 : requests ctc 3 <;> simp

theorem pending_count_cleared (ctc : Z80_CTC) (i : Fin 4) (hi : requests ctc i = true) :
    pending_count (ctc.setChannel i { ctc.channels i with interrupt_pending := false }) + 1 =
      pending_count ctc := by
  rw [pending_count_eq, pending_count_eq]
  simp only [requests_cleared]
  fin_cases i <;> simp at hi <;> simp [hi] <;> omega

theorem has_pending_iff_count (ctc : Z80_CTC) :
    z80_ctc_has_pending_interrupt ctc = true ↔ 0 < pending_count ctc := by
  rw [pending_count_eq]
  constructor
  · intro h
    by_contra hzero
    have hall : ∀ i : Fin 4, requests ctc i = false := by
      intro i
      fin_cases i
      · cases h0 : requests ctc 0
        · exact h0
        · simp [h0] at hzero
      · cases h1 : requests ctc 1
        · exact h1
        · simp [h1] at hzero
      · cases h2 : requests ctc 2
        · exact h2
        · simp [h2] at hzero
      · cases h3 : requests ctc 3
        · exact h3
        · simp [h3] at hzero
    rw [(has_pending_false_iff ctc).mpr hall] at h
    exact Bool.noConfusion h
  · intro h
    cases hp : z80_ctc_has_pending_interrupt ctc
    · have hall := (has_pending_false_iff ctc).mp hp
      simp [hall 0, hall 1, hall 2, hall 3] at h
    · rfl

theorem first_request (ctc : Z80_CTC) (h : 0 < pending_count ctc) :
    ∃ i : Fin 4, requests ctc i = true ∧ ∀ j : Fin 4, j < i → requests ctc j = false := by
  rw [pending_count_eq] at h
  cases h0 : requests ctc 0
  · cases h1 : requests ctc 1
    · cases h2 : requests ctc 2
      · cases h3 : requests ctc 3
        · simp [h0, h1, h2, h3] at h
        · refine ⟨3, h3, ?_⟩
          intro j hj
          fin_cases j
          · exact h0
          · exact h1
          · exact h2
          · exact absurd hj (by decide)
      · refine ⟨2, h2, ?_⟩
        intro j hj
        fin_cases j
        · exact h0
        · exact h1
        · exact absurd hj (by decide)
        · exact absurd hj (by decide)
    · refine ⟨1, h1, ?_⟩
      intro j hj
      fin_cases j
      · exact h0
      · exact absurd hj (by decide)
      · exact absurd hj (by decide)
      · exact absurd hj (by decide)
  · refine ⟨0, h0, ?_⟩
    intro j hj
    exact absurd hj (by simp)

theorem pending_count_acknowledge (H : Z80_CTC_Handlers) (ctc : Z80_CTC) :
    pending_count (z80_ctc_acknowledge_interrupt H ctc).ctc = pending_count ctc - 1 := by
  by_cases h : 0 < pending_count ctc
  · obtain ⟨i, hi, hlow⟩ := first_request ctc h
    rw [acknowledge_first H ctc i hi hlow, acknowledge_at_ctc]
    have := pending_count_cleared ctc i hi
    omega
  · have hfalse : z80_ctc_has_pending_interrupt ctc = false := by
      cases hp : z80_ctc_has_pending_interrupt ctc
      · rfl
      · exact absurd ((has_pending_iff_count ctc).mp hp) h
    rw [acknowledge_none H ctc ((has_pending_false_iff ctc).mp hfalse)]
    show pending_count ctc = pending_count ctc - 1
    omega

theorem pending_count_acknowledge_times (H : Z80_CTC_Handlers) (ctc : Z80_CTC) (n : Nat) :
    pending_count (acknowledge_times H ctc n) = pending_count ctc - n := by
  induction n with
  | zero => rfl
  | succ n ih =>
    simp only [acknowledge_times]
    rw [pending_count_acknowledge, ih]
    omega

theorem init_channels (ctc : Z80_CTC) (f : Nat) (j : Fin 4) :
    (z80_ctc_init ctc f).channels j = { zero_channel with prescaler := 16 } := by
  simp only [z80_ctc_init, channel_indices, List.foldl, memset_zero, zero_ctc]
  fin_cases j <;> simp [Z80_CTC.setChannel, zero_channel, CTC_PRESCALER_16]

theorem init_fields (ctc : Z80_CTC) (f : Nat) :
    (z80_ctc_init ctc f).system_clock_frequency = f % 2 ^ 32 ∧
    (z80_ctc_init ctc f).interrupt_handler = 0 ∧
    (z80_ctc_init ctc f).interrupt_context = 0 := by
  simp only [z80_ctc_init, channel_indices, List.foldl, memset_zero, zero_ctc]
  exact ⟨rfl, rfl, rfl⟩

/-- C8: when some channel has an enabled, pending interrupt and `i` is the
lowest such index, `z80_ctc_acknowledge_interrupt` leaves the controller equal
to the old one with `interrupt_pending` of channel `i` cleared (nothing else
changes); it returns channel `i`'s vector and calls nothing when no global
handler is installed, and returns the installed handler's result for `i`
otherwise.  If `k` is the next channel above `i` with an enabled, pending
interrupt, its flag is still set after the first call and a second call clears
exactly that flag. -/
theorem acknowledge_priority (H : Z80_CTC_Handlers) (ctc : Z80_CTC) (i : Fin 4)
    (hi : requests ctc i = true) (hlow : ∀ j : Fin 4, j < i → requests ctc j = false) :
    (z80_ctc_acknowledge_interrupt H ctc).ctc =
      ctc.setChannel i { ctc.channels i with interrupt_pending := false } ∧
    (ctc.interrupt_handler = 0 →
      (z80_ctc_acknowledge_interrupt H ctc).value = (ctc.channels i).interrupt_vector ∧
      (z80_ctc_acknowledge_interrupt H ctc).trace = []) ∧
    (ctc.interrupt_handler ≠ 0 →
      (z80_ctc_acknowledge_interrupt H ctc).value =
        H ctc.interrupt_handler (z80_ctc_acknowledge_interrupt H ctc).ctc i.val
          ctc.interrupt_context % 256 ∧
      (z80_ctc_acknowledge_interrupt H ctc).trace =
        [Event.handler ctc.interrupt_handler i.val ctc.interrupt_context]) ∧
    (∀ k : Fin 4, i < k → requests ctc k = true →
      (∀ j : Fin 4, i < j → j < k → requests ctc j = false) →
      ((z80_ctc_acknowledge_interrupt H ctc).ctc.channels k).interrupt_pending = true ∧
      (z80_ctc_acknowledge_interrupt H (z80_ctc_acknowledge_interrupt H ctc).ctc).ctc =
        (z80_ctc_acknowledge_interrupt H ctc).ctc.setChannel k
          { (z80_ctc_acknowledge_interrupt H ctc).ctc.channels k with
            interrupt_pending := false }) := by
  rw [acknowledge_first H ctc i hi hlow]
  refine ⟨acknowledge_at_ctc H ctc i, ?_, ?_, ?_⟩
  · intro h0
    simp [acknowledge_at, h0]
  · intro h1
    simp [acknowledge_at, h1]
  · intro k hik hk hbetween
    rw [acknowledge_at_ctc]
    have hki : k ≠ i := Fin.ne_of_gt hik
    have hk2 : requests (ctc.setChannel i { ctc.channels i with interrupt_pending := false }) k
        = true := by
      rw [requests_cleared]
      simp [hki, hk]
    have hlow2 : ∀ j : Fin 4, j < k →
        requests (ctc.setChannel i { ctc.channels i with interrupt_pending := false }) j
          = false := by
      intro j hjk
      rw [requests_cleared]
      by_cases hji : j = i
      · simp [hji]
      · simp only [hji, ↓reduceIte]
        rcases Nat.lt_or_ge j.val i.val with hlt | hge
        · exact hlow j hlt
        · have hij : i < j := by
            have hne : j.val ≠ i.val := fun h => hji (Fin.ext h)
            exact Fin.lt_def.mpr (by omega)
          exact hbetween j hij hjk
    refine ⟨?_, ?_⟩
    · unfold requests at hk
      simp only [Bool.and_eq_true] at hk
      rw [setChannel_other _ _ _ _ hki]
      exact hk.2
    · rw [acknowledge_first H _ k hk2 hlow2, acknowledge_at_ctc]

/-- Witness of C8: with channels 0 and 2 pending and enabled and no handler,
the first acknowledge returns `0x10` and leaves channel 2 pending; the second
clears channel 2's flag. -/
theorem acknowledge_priority_witness :
    (requests two_pending 0 = true ∧ two_pending.interrupt_handler = 0 ∧
      requests two_pending 1 = false ∧ requests two_pending 2 = true) ∧
    (z80_ctc_acknowledge_interrupt sample_handlers two_pending).value = 0x10 ∧
    ((z80_ctc_acknowledge_interrupt sample_handlers two_pending).ctc.channels 2).interrupt_pending
      = true ∧
    (z80_ctc_acknowledge_interrupt sample_handlers
        (z80_ctc_acknowledge_interrupt sample_handlers two_pending).ctc).ctc =
      (z80_ctc_acknowledge_interrupt sample_handlers two_pending).ctc.setChannel 2
        { (z80_ctc_acknowledge_interrupt sample_handlers two_pending).ctc.channels 2 with
          interrupt_pending := false } := by
  have h := acknowledge_priority sample_handlers two_pending 0 (by decide)
    (fun j hj => absurd hj (by simp))
  have h2 := h.2.2.2 2 (by decide) (by decide)
    (fun j h0j hj2 => by
      have : j = 1 := by
        apply Fin.ext
        have h1 : 0 < j.val := h0j
        have h2 : j.val < 2 := hj2
        show j.val = 1
        omega
      rw [this]
      decide)
  exact ⟨by decide, (h.2.1 rfl).1, h2.1, h2.2⟩

/-- C9: when `z80_ctc_has_pending_interrupt` is false,
`z80_ctc_acknowledge_interrupt` returns 0, makes no call (the trace is empty,
so the global handler is not invoked) and leaves the controller unchanged. -/
theorem acknowledge_nothing_pending (H : Z80_CTC_Handlers) (ctc : Z80_CTC)
    (h : z80_ctc_has_pending_interrupt ctc = false) :
    (z80_ctc_acknowledge_interrupt H ctc).value = 0 ∧
    (z80_ctc_acknowledge_interrupt H ctc).trace = [] ∧
    (z80_ctc_acknowledge_interrupt H ctc).ctc = ctc := by
  rw [acknowledge_none H ctc ((has_pending_false_iff ctc).mp h)]
  exact ⟨rfl, rfl, rfl⟩

/-- Witness of C9: a controller with a handler installed and a pending but
disabled interrupt on channel 1. -/
theorem acknowledge_nothing_pending_witness :
    z80_ctc_has_pending_interrupt
      (z80_ctc_set_global_interrupt_handler
        (zero_ctc.setChannel 1 { zero_channel with interrupt_pending := true }) 7 9) = false ∧
    (z80_ctc_acknowledge_interrupt sample_handlers
      (z80_ctc_set_global_interrupt_handler
        (zero_ctc.setChannel 1 { zero_channel with interrupt_pending := true }) 7 9)).value = 0 :=
  ⟨by decide,
    (acknowledge_nothing_pending sample_handlers
      (z80_ctc_set_global_interrupt_handler
        (zero_ctc.setChannel 1 { zero_channel with interrupt_pending := true }) 7 9)
      (by decide)).1⟩

/-- C10: `z80_ctc_has_pending_interrupt` is false right after `z80_ctc_init`,
whatever the clock frequency and the prior contents; and when exactly `m`
channels have an enabled, pending interrupt, it is still true after fewer
than `m` calls of `z80_ctc_acknowledge_interrupt` and false after `m` calls. -/
theorem has_pending_after_acknowledges (H : Z80_CTC_Handlers) (ctc : Z80_CTC) (m : Nat)
    (hm : pending_count ctc = m) :
    (∀ (prior : Z80_CTC) (f : Nat),
      z80_ctc_has_pending_interrupt (z80_ctc_init prior f) = false) ∧
    (∀ j : Nat, j < m → z80_ctc_has_pending_interrupt (acknowledge_times H ctc j) = true) ∧
    z80_ctc_has_pending_interrupt (acknowledge_times H ctc m) = false := by
  refine ⟨?_, ?_, ?_⟩
  · intro prior f
    rw [has_pending_false_iff]
    intro i
    simp [requests, init_channels, zero_channel]
  · intro j hj
    rw [has_pending_iff_count, pending_count_acknowledge_times]
    omega
  · cases hp : z80_ctc_has_pending_interrupt (acknowledge_times H ctc m)
    · rfl
    · have := (has_pending_iff_count _).mp hp
      rw [pending_count_acknowledge_times] at this
      omega

/-- Witness of C10: two channels pending, so one acknowledge leaves a pending
interrupt and two leave none. -/
theorem has_pending_after_acknowledges_witness :
    pending_count two_pending = 2 ∧
    z80_ctc_has_pending_interrupt (acknowledge_times sample_handlers two_pending 1) = true ∧
    z80_ctc_has_pending_interrupt (acknowledge_times sample_handlers two_pending 2) = false :=
  ⟨by decide,
    (has_pending_after_acknowledges sample_handlers two_pending 2 (by decide)).2.1 1 (by decide),
    (has_pending_after_acknowledges sample_handlers two_pending 2 (by decide)).2.2⟩

/-! ## Timer mode under clock ticks -/

theorem scenario_timer_channel :
    scenario_timer.channels 0 =
      { zero_channel with
        prescaler := 16, interrupt_enabled := true, control_register := 0x86,
        time_constant := 100, current_count := 100, is_running := true } := by
  decide

theorem prescaler_256_timer_channel :
    prescaler_256_timer.channels 0 =
      { zero_channel with
        prescaler := 256, control_register := 0x20,
        time_constant := 1, current_count := 1, is_running := true } := by
  decide

theorem scenario_timer_after (n : Nat) :
    (clock_ticks scenario_timer n).1.channels 0 =
      { zero_channel with
        prescaler := 16, interrupt_enabled := true, control_register := 0x86,
        time_constant := 100, current_count := 100 - (n / 16) % 100, is_running := true,
        interrupt_pending := decide (100 ≤ n / 16), trigger_count := n % 16 } ∧
    zero_crossings 0 (clock_ticks scenario_timer n).2 = n / 1600 := by
  have hticks := channel_ticks_prescaler_16 0 (scenario_timer.channels 0) n
    (by rw [scenario_timer_channel]; rfl) (by rw [scenario_timer_channel])
    (by rw [scenario_timer_channel]) (by rw [scenario_timer_channel]; decide)
  have hclosed := count_downs_closed 0 (scenario_timer.channels 0)
    (((scenario_timer.channels 0).trigger_count + n) / 16)
    (by rw [scenario_timer_channel]; decide) (by rw [scenario_timer_channel]; decide)
  have ht : (scenario_timer.channels 0).trigger_count + n = n := by
    rw [scenario_timer_channel]
    exact Nat.zero_add n
  rw [ht] at hticks hclosed
  refine ⟨?_, ?_⟩
  · have h := clock_ticks_channels scenario_timer 0 n
    rw [h]
    show (channel_ticks 0 (scenario_timer.channels 0) n).1 = _
    rw [hticks, hclosed.1, scenario_timer_channel]
    simp [counted, reload, zero_channel]
  · unfold zero_crossings
    rw [clock_ticks_count scenario_timer 0 (Event.zero_count 0) rfl n]
    show zero_crossings 0 (channel_ticks 0 (scenario_timer.channels 0) n).2 = _
    rw [hticks, hclosed.2.2.1, scenario_timer_channel]
    simp only [reload, zero_channel]
    simp [Nat.div_div_eq_div_mul]

theorem prescaler_256_timer_after (n : Nat) :
    (clock_ticks prescaler_256_timer n).1.channels 0 =
      { zero_channel with
        prescaler := 256, control_register := 0x20,
        time_constant := 1, current_count := 1, is_running := true,
        trigger_count := n % 256 } ∧
    ∀ e : Event, e.channel_of = 0 → (clock_ticks prescaler_256_timer n).2.count e = 0 := by
  have hticks := channel_ticks_prescaler_256 0 (prescaler_256_timer.channels 0) n
    (by rw [prescaler_256_timer_channel]; rfl) (by rw [prescaler_256_timer_channel])
    (by rw [prescaler_256_timer_channel]) (by rw [prescaler_256_timer_channel]; decide)
  refine ⟨?_, ?_⟩
  · have h := clock_ticks_channels prescaler_256_timer 0 n
    rw [h]
    show (channel_ticks 0 (prescaler_256_timer.channels 0) n).1 = _
    rw [hticks, prescaler_256_timer_channel]
    simp [zero_channel]
  · intro e he
    rw [clock_ticks_count prescaler_256_timer 0 e he n]
    show (channel_ticks 0 (prescaler_256_timer.channels 0) n).2.count e = 0
    rw [hticks]
    simp

/-- C4, at prescaler 256: on the controller `init(4000000)`,
`write_control(0, 0x20)`, `write_time_constant(0, 1)` channel 0 is a running
Timer-mode channel with prescaler 256 and count 1, yet no number of clock
ticks runs its counting step or reaches a zero-crossing: after 256 ticks the
count is still 1, no interrupt is pending, and `trigger_count` is back at 0. -/
theorem prescaler_256_never_counts :
    ((prescaler_256_timer.channels 0).mode = CTC_MODE_TIMER ∧
      (prescaler_256_timer.channels 0).prescaler = CTC_PRESCALER_256 ∧
      (prescaler_256_timer.channels 0).is_running = true ∧
      (prescaler_256_timer.channels 0).current_count = 1) ∧
    (∀ n : Nat,
      decrements 0 (clock_ticks prescaler_256_timer n).2 = 0 ∧
      zero_crossings 0 (clock_ticks prescaler_256_timer n).2 = 0 ∧
      ((clock_ticks prescaler_256_timer n).1.channels 0).current_count = 1) ∧
    ((clock_ticks prescaler_256_timer 256).1.channels 0).trigger_count = 0 ∧
    ((clock_ticks prescaler_256_timer 256).1.channels 0).interrupt_pending = false := by
  refine ⟨by decide, ?_, ?_, ?_⟩
  · intro n
    obtain ⟨hch, hcount⟩ := prescaler_256_timer_after n
    refine ⟨hcount _ rfl, hcount _ rfl, ?_⟩
    rw [hch]
  · rw [(prescaler_256_timer_after 256).1]
  · rw [(prescaler_256_timer_after 256).1]
    rfl

/-- C5, as stated, fails: after the 25600 ticks of the scenario the number of
zero-crossings of channel 0 is not one. -/
theorem scenario_timer_not_one_crossing :
    zero_crossings 0 (clock_ticks scenario_timer 25600).2 ≠ 1 := by
  intro h
  have h16 : (25600 : Nat) / 1600 = 1 := (scenario_timer_after 25600).2.symm.trans h
  exact absurd h16 (by decide)

theorem acknowledge_without_handler (H : Z80_CTC_Handlers) (ctc : Z80_CTC) (i : Fin 4)
    (hi : requests ctc i = true) (hlow : ∀ j : Fin 4, j < i → requests ctc j = false)
    (hh : ctc.interrupt_handler = 0) :
    (z80_ctc_acknowledge_interrupt H ctc).value = (ctc.channels i).interrupt_vector ∧
    (z80_ctc_acknowledge_interrupt H ctc).trace = [] ∧
    ((z80_ctc_acknowledge_interrupt H ctc).ctc.channels i).interrupt_pending = false := by
  rw [acknowledge_first H ctc i hi hlow]
  simp [acknowledge_at, hh]

theorem requests_of_flags (ctc : Z80_CTC) (i : Fin 4)
    (he : (ctc.channels i).interrupt_enabled = true)
    (hp : (ctc.channels i).interrupt_pending = true) : requests ctc i = true := by
  simp [requests, he, hp]

/-- C5, amended: `0x86` selects prescaler 16, so channel 0 of the scenario has
a zero-crossing every 1600 ticks; after 25600 ticks exactly 16 have occurred,
`interrupt_pending` of channel 0 is set, and `z80_ctc_acknowledge_interrupt`
(no global handler is installed) returns channel 0's vector, calls nothing
and clears channel 0's `interrupt_pending`. -/
theorem scenario_timer_sixteen_crossings :
    (scenario_timer.channels 0).prescaler = CTC_PRESCALER_16 ∧
    (∀ n : Nat, zero_crossings 0 (clock_ticks scenario_timer n).2 = n / 1600) ∧
    zero_crossings 0 (clock_ticks scenario_timer 25600).2 = 16 ∧
    ((clock_ticks scenario_timer 25600).1.channels 0).interrupt_pending = true ∧
    (clock_ticks scenario_timer 25600).1.interrupt_handler = 0 ∧
    (∀ H : Z80_CTC_Handlers,
      (z80_ctc_acknowledge_interrupt H (clock_ticks scenario_timer 25600).1).value =
        ((clock_ticks scenario_timer 25600).1.channels 0).interrupt_vector ∧
      (z80_ctc_acknowledge_interrupt H (clock_ticks scenario_timer 25600).1).trace = [] ∧
      ((z80_ctc_acknowledge_interrupt H (clock_ticks scenario_timer 25600).1).ctc.channels
        0).interrupt_pending = false) := by
  have hch := (scenario_timer_after 25600).1
  have hhandler : (clock_ticks scenario_timer 25600).1.interrupt_handler = 0 :=
    (clock_ticks_fields scenario_timer 25600).2.1.trans (by decide)
  have hen : ((clock_ticks scenario_timer 25600).1.channels 0).interrupt_enabled = true :=
    (congrArg Z80_CTC_Channel.interrupt_enabled hch).trans (by decide)
  have hpend : ((clock_ticks scenario_timer 25600).1.channels 0).interrupt_pending = true :=
    (congrArg Z80_CTC_Channel.interrupt_pending hch).trans (by decide)
  have hcross : zero_crossings 0 (clock_ticks scenario_timer 25600).2 = 16 :=
    (scenario_timer_after 25600).2.trans (by decide)
  exact ⟨by decide, fun n => (scenario_timer_after n).2, hcross, hpend, hhandler,
    fun H => acknowledge_without_handler H _ 0 (requests_of_flags _ 0 hen hpend)
      (fun j hj => absurd hj (by simp)) hhandler⟩

/-! ## Counter mode under trigger transitions -/

theorem setChannel_twice (ctc : Z80_CTC) (i : Fin 4) (a b : Z80_CTC_Channel) :
    (ctc.setChannel i a).setChannel i b = ctc.setChannel i b := by
  ext j
  · by_cases h : j = i
    · subst h; simp
    · simp [h]
  all_goals rfl

theorem count_down_decrements (i : Nat) (ch : Z80_CTC_Channel) :
    decrements i (count_down i ch).2 = 1 := by
  by_cases h : ch.current_count ≤ 1
  · rw [count_down_reload i ch h]
    by_cases hcb : ch.expiration_callback = 0 <;> simp [decrements, hcb]
  · rw [count_down_step i ch (by omega)]
    simp [decrements]

theorem count_downs_decrements (i : Nat) (ch : Z80_CTC_Channel) (d : Nat) :
    decrements i (count_downs i ch d).2 = d := by
  induction d with
  | zero => rfl
  | succ d ih =>
    have h1 := count_down_decrements i (count_downs i ch d).1
    simp only [decrements] at ih h1
    simp only [count_downs, decrements, List.count_append, ih, h1]

theorem count_down_current_count (i : Nat) (ch : Z80_CTC_Channel) :
    (count_down i ch).1.current_count =
      (if ch.current_count ≤ 1 then reload ch.time_constant else ch.current_count - 1) := by
  by_cases h : ch.current_count ≤ 1
  · rw [count_down_reload i ch h]
    simp [h]
  · rw [count_down_step i ch (by omega)]
    simp [h]

theorem count_down_last (i : Nat) (ch : Z80_CTC_Channel) (v : Bool) :
    count_down i { ch with last_trigger_state := v } =
      ({ (count_down i ch).1 with last_trigger_state := v }, (count_down i ch).2) := by
  by_cases h : ch.current_count ≤ 1
  · rw [count_down_reload i ch h, count_down_reload i { ch with last_trigger_state := v } h]
  · rw [count_down_step i ch (by omega),
      count_down_step i { ch with last_trigger_state := v } (by simp only; omega)]

theorem trigger_low_rising (i : Nat) (ch : Z80_CTC_Channel)
    (hm : ch.mode = CTC_MODE_COUNTER) (he : ch.trigger_edge = CTC_TRIGGER_RISING_EDGE) :
    trigger_input_channel i ch false = ({ ch with last_trigger_state := false }, []) := by
  simp [trigger_input_channel, hm, he]

theorem trigger_high_rising_edge (i : Nat) (ch : Z80_CTC_Channel)
    (hm : ch.mode = CTC_MODE_COUNTER) (he : ch.trigger_edge = CTC_TRIGGER_RISING_EDGE)
    (hr : ch.is_running = true) (hl : ch.last_trigger_state = false) :
    trigger_input_channel i ch true =
      ({ (count_down i ch).1 with last_trigger_state := true }, (count_down i ch).2) := by
  simp [trigger_input_channel, hm, he, hr, hl]

theorem trigger_high_rising_hold (i : Nat) (ch : Z80_CTC_Channel)
    (hm : ch.mode = CTC_MODE_COUNTER) (he : ch.trigger_edge = CTC_TRIGGER_RISING_EDGE)
    (hl : ch.last_trigger_state = true) :
    trigger_input_channel i ch true = (ch, []) := by
  cases ch
  simp only at hm he hl
  subst hm he hl
  simp [trigger_input_channel]

theorem pulse_channel_rising (i : Nat) (ch : Z80_CTC_Channel)
    (hm : ch.mode = CTC_MODE_COUNTER) (he : ch.trigger_edge = CTC_TRIGGER_RISING_EDGE)
    (hr : ch.is_running = true) :
    pulse_channel i ch =
      ({ (count_down i ch).1 with last_trigger_state := true }, (count_down i ch).2) := by
  unfold pulse_channel
  rw [trigger_low_rising i ch hm he]
  have h := trigger_high_rising_edge i { ch with last_trigger_state := false } hm he hr rfl
  simp only [h, List.nil_append]
  rw [count_down_last i ch false]

theorem trigger_pulse_valid (ctc : Z80_CTC) (c : Nat) (hc : c < 4) :
    trigger_pulse ctc c =
      (ctc.setChannel ⟨c, hc⟩ (pulse_channel c (ctc.channels ⟨c, hc⟩)).1,
        (pulse_channel c (ctc.channels ⟨c, hc⟩)).2) := by
  unfold trigger_pulse pulse_channel
  simp only [trigger_input_valid _ c _ hc, setChannel_same, setChannel_twice]

theorem trigger_pulses_closed (ctc : Z80_CTC) (c : Nat) (hc : c < 4)
    (hm : (ctc.channels ⟨c, hc⟩).mode = CTC_MODE_COUNTER)
    (he : (ctc.channels ⟨c, hc⟩).trigger_edge = CTC_TRIGGER_RISING_EDGE)
    (hr : (ctc.channels ⟨c, hc⟩).is_running = true) (n : Nat) :
    trigger_pulses ctc c n =
      (ctc.setChannel ⟨c, hc⟩
        { (count_downs c (ctc.channels ⟨c, hc⟩) n).1 with
          last_trigger_state :=
            if n = 0 then (ctc.channels ⟨c, hc⟩).last_trigger_state else true },
        (count_downs c (ctc.channels ⟨c, hc⟩) n).2) := by
  induction n with
  | zero =>
    simp only [trigger_pulses, count_downs, ↓reduceIte]
    exact Prod.ext (setChannel_self ctc ⟨c, hc⟩).symm rfl
  | succ n ih =>
    have hfr := count_downs_frame c (ctc.channels ⟨c, hc⟩) n
    have hm2 : (count_downs c (ctc.channels ⟨c, hc⟩) n).1.mode = CTC_MODE_COUNTER :=
      (congrArg Z80_CTC_Channel.mode hfr).trans hm
    have he2 : (count_downs c (ctc.channels ⟨c, hc⟩) n).1.trigger_edge
        = CTC_TRIGGER_RISING_EDGE :=
      (congrArg Z80_CTC_Channel.trigger_edge hfr).trans he
    have hr2 : (count_downs c (ctc.channels ⟨c, hc⟩) n).1.is_running = true :=
      (congrArg Z80_CTC_Channel.is_running hfr).trans hr
    have hpulse := pulse_channel_rising c
      { (count_downs c (ctc.channels ⟨c, hc⟩) n).1 with
        last_trigger_state :=
          if n = 0 then (ctc.channels ⟨c, hc⟩).last_trigger_state else true } hm2 he2 hr2
    have hlast := count_down_last c (count_downs c (ctc.channels ⟨c, hc⟩) n).1
      (if n = 0 then (ctc.channels ⟨c, hc⟩).last_trigger_state else true)
    simp only [trigger_pulses, ih, trigger_pulse_valid _ c hc, setChannel_same,
      setChannel_twice, hpulse, hlast, count_downs, Nat.succ_ne_zero, ↓reduceIte]

theorem trigger_repeat_hold (ctc : Z80_CTC) (c : Nat) (hc : c < 4)
    (hm : (ctc.channels ⟨c, hc⟩).mode = CTC_MODE_COUNTER)
    (he : (ctc.channels ⟨c, hc⟩).trigger_edge = CTC_TRIGGER_RISING_EDGE)
    (hl : (ctc.channels ⟨c, hc⟩).last_trigger_state = true) (n : Nat) :
    trigger_repeat ctc c true n = (ctc, []) := by
  induction n with
  | zero => rfl
  | succ n ih =>
    simp only [trigger_repeat, ih, trigger_input_valid ctc c true hc,
      trigger_high_rising_hold c _ hm he hl, setChannel_self, List.append_nil]

theorem trigger_input_channel_keeps (i : Nat) (ch : Z80_CTC_Channel) (v : Bool)
    (hm : ch.mode = CTC_MODE_COUNTER) :
    (trigger_input_channel i ch v).1.mode = ch.mode ∧
    (trigger_input_channel i ch v).1.trigger_edge = ch.trigger_edge ∧
    (trigger_input_channel i ch v).1.last_trigger_state = v := by
  have hfr := count_down_frame i ch
  have h1 := congrArg Z80_CTC_Channel.mode hfr
  have h2 := congrArg Z80_CTC_Channel.trigger_edge hfr
  simp only [config_of] at h1 h2
  simp only [trigger_input_channel, hm, ne_eq, not_true_eq_false, ↓reduceIte]
  split
  · exact ⟨h1.trans hm, h2, trivial⟩
  · exact ⟨hm, rfl, trivial⟩

/-- C6: on a running Counter-mode channel `c` with Rising trigger edge,
whatever `last_trigger_state` holds: `N` pairs `trigger_input(c, false)`,
`trigger_input(c, true)` run the counting step exactly `N` times, each pair
once (the count goes down by one, or is reloaded when it reaches 0); and after
one `trigger_input(c, true)`, any number of further `trigger_input(c, true)`
calls runs no counting step and leaves the controller unchanged. -/
theorem rising_edges_counted_once (ctc : Z80_CTC) (c : Nat) (hc : c < 4)
    (hm : (ctc.channels ⟨c, hc⟩).mode = CTC_MODE_COUNTER)
    (he : (ctc.channels ⟨c, hc⟩).trigger_edge = CTC_TRIGGER_RISING_EDGE)
    (hr : (ctc.channels ⟨c, hc⟩).is_running = true) :
    (∀ N : Nat, decrements c (trigger_pulses ctc c N).2 = N) ∧
    (∀ N : Nat,
      ((trigger_pulses ctc c (N + 1)).1.channels ⟨c, hc⟩).current_count =
        (if ((trigger_pulses ctc c N).1.channels ⟨c, hc⟩).current_count ≤ 1 then
          reload ((trigger_pulses ctc c N).1.channels ⟨c, hc⟩).time_constant
         else ((trigger_pulses ctc c N).1.channels ⟨c, hc⟩).current_count - 1)) ∧
    (∀ M : Nat,
      trigger_repeat (z80_ctc_trigger_input ctc c true).1 c true M =
        ((z80_ctc_trigger_input ctc c true).1, [])) := by
  refine ⟨?_, ?_, ?_⟩
  · intro N
    rw [trigger_pulses_closed ctc c hc hm he hr N]
    exact count_downs_decrements c _ N
  · intro N
    rw [trigger_pulses_closed ctc c hc hm he hr (N + 1),
      trigger_pulses_closed ctc c hc hm he hr N]
    simp only [setChannel_same, count_downs]
    exact count_down_current_count c _
  · intro M
    have hkeep := trigger_input_channel_keeps c (ctc.channels ⟨c, hc⟩) true hm
    have hch : (z80_ctc_trigger_input ctc c true).1.channels ⟨c, hc⟩ =
        (trigger_input_channel c (ctc.channels ⟨c, hc⟩) true).1 := by
      rw [trigger_input_valid ctc c true hc]
      exact setChannel_same _ _ _
    exact trigger_repeat_hold _ c hc (by rw [hch, hkeep.1, hm]) (by rw [hch, hkeep.2.1, he])
      (by rw [hch, hkeep.2.2]) M

/-- Witness of C6: channel 1 of `rising_counter`, three pairs, and five
repeated highs. -/
theorem rising_edges_counted_once_witness :
    ((rising_counter.channels 1).mode = CTC_MODE_COUNTER ∧
      (rising_counter.channels 1).trigger_edge = CTC_TRIGGER_RISING_EDGE ∧
      (rising_counter.channels 1).is_running = true) ∧
    decrements 1 (trigger_pulses rising_counter 1 3).2 = 3 ∧
    trigger_repeat (z80_ctc_trigger_input rising_counter 1 true).1 1 true 5 =
      ((z80_ctc_trigger_input rising_counter 1 true).1, []) :=
  ⟨by decide,
    (rising_edges_counted_once rising_counter 1 (by decide) (by decide) (by decide)
      (by decide)).1 3,
    (rising_edges_counted_once rising_counter 1 (by decide) (by decide) (by decide)
      (by decide)).2.2 5⟩

/-- C7: a channel put in Counter mode with Rising edge by
`z80_ctc_write_control(c, b)` and armed by `z80_ctc_write_time_constant(c, k)`
has, after `n` full transitions of its trigger line, had exactly `n / R`
zero-crossings (`R` the reload value of `k`), each with one call of the
registered expiration callback (none when no callback is registered), and
holds `current_count = R - n % R`. -/
theorem counter_expires_every_reload (ctc : Z80_CTC) (c b k n : Nat) (hc : c < 4)
    (hb : b < 256) (hk : k < 256) (h6 : b.testBit 6 = true) (h4 : b.testBit 4 = true) :
    zero_crossings c
        (trigger_pulses (z80_ctc_write_time_constant (z80_ctc_write_control ctc c b) c k)
          c n).2 = n / reload k ∧
    callback_calls c (ctc.channels ⟨c, hc⟩).expiration_callback
        (ctc.channels ⟨c, hc⟩).callback_context
        (trigger_pulses (z80_ctc_write_time_constant (z80_ctc_write_control ctc c b) c k)
          c n).2 =
      (if (ctc.channels ⟨c, hc⟩).expiration_callback = 0 then 0 else n / reload k) ∧
    ((trigger_pulses (z80_ctc_write_time_constant (z80_ctc_write_control ctc c b) c k)
        c n).1.channels ⟨c, hc⟩).current_count = reload k - n % reload k := by
  have hch : (z80_ctc_write_time_constant (z80_ctc_write_control ctc c b) c k).channels ⟨c, hc⟩
      = write_time_constant_channel (control_decoded (ctc.channels ⟨c, hc⟩) b) k := by
    rw [write_time_constant_valid _ c k hc hk, write_control_valid ctc c b hc hb,
      write_control_channel_eq _ b hb]
    simp
  have hm : ((z80_ctc_write_time_constant (z80_ctc_write_control ctc c b) c k).channels
      ⟨c, hc⟩).mode = CTC_MODE_COUNTER := by
    rw [hch]; simp [write_time_constant_channel, control_decoded, h6]
  have he : ((z80_ctc_write_time_constant (z80_ctc_write_control ctc c b) c k).channels
      ⟨c, hc⟩).trigger_edge = CTC_TRIGGER_RISING_EDGE := by
    rw [hch]; simp [write_time_constant_channel, control_decoded, h4]
  have hr : ((z80_ctc_write_time_constant (z80_ctc_write_control ctc c b) c k).channels
      ⟨c, hc⟩).is_running = true := by
    rw [hch]; simp [write_time_constant_channel]
  rw [trigger_pulses_closed _ c hc hm he hr n, hch]
  have hcount : (write_time_constant_channel (control_decoded (ctc.channels ⟨c, hc⟩) b)
      k).current_count = reload k := rfl
  have htc : (write_time_constant_channel (control_decoded (ctc.channels ⟨c, hc⟩) b)
      k).time_constant = k := rfl
  have hclosed := count_downs_closed c
    (write_time_constant_channel (control_decoded (ctc.channels ⟨c, hc⟩) b) k) n
    (by rw [hcount]; exact reload_pos k) (by rw [hcount, htc])
  rw [hcount, htc, Nat.sub_self, Nat.zero_add] at hclosed
  refine ⟨hclosed.2.2.1, hclosed.2.2.2, ?_⟩
  simp only [setChannel_same]
  rw [hclosed.1]
  simp only [counted, hcount, htc, Nat.sub_self, Nat.zero_add]

/-- Witness of C7: time constant 10; ten transitions give exactly one callback
call and one zero-crossing, and the eleventh starts a new cycle at count 9. -/
theorem counter_expires_every_reload_witness :
    (1 < 4 ∧ 0xD0 < 256 ∧ 10 < 256 ∧ (0xD0).testBit 6 = true ∧ (0xD0).testBit 4 = true) ∧
    zero_crossings 1 (trigger_pulses rising_counter 1 10).2 = 1 ∧
    callback_calls 1 0x4000 0x5000 (trigger_pulses rising_counter 1 10).2 = 1 ∧
    ((trigger_pulses rising_counter 1 10).1.channels 1).current_count = 10 ∧
    ((trigger_pulses rising_counter 1 11).1.channels 1).current_count = 9 :=
  ⟨by decide,
    (counter_expires_every_reload (z80_ctc_set_callback zero_ctc 1 0x4000 0x5000) 1 0xD0 10 10
      (by decide) (by decide) (by decide) (by decide) (by decide)).1,
    (counter_expires_every_reload (z80_ctc_set_callback zero_ctc 1 0x4000 0x5000) 1 0xD0 10 10
      (by decide) (by decide) (by decide) (by decide) (by decide)).2.1,
    (counter_expires_every_reload (z80_ctc_set_callback zero_ctc 1 0x4000 0x5000) 1 0xD0 10 10
      (by decide) (by decide) (by decide) (by decide) (by decide)).2.2,
    (counter_expires_every_reload (z80_ctc_set_callback zero_ctc 1 0x4000 0x5000) 1 0xD0 10 11
      (by decide) (by decide) (by decide) (by decide) (by decide)).2.2⟩

/-! ## Out-of-range indices, initial state, vectors, isolation -/

theorem set_callback_valid (ctc : Z80_CTC) (c cb cx : Nat) (hc : c < 4) :
    z80_ctc_set_callback ctc c cb cx =
      ctc.setChannel ⟨c, hc⟩
        { ctc.channels ⟨c, hc⟩ with expiration_callback := cb, callback_context := cx } := by
  have h1 : c % 256 = c := Nat.mod_eq_of_lt (by omega)
  have h3 : ¬ c > 3 := by omega
  simp [z80_ctc_set_callback, h1, h3]

theorem set_interrupt_vector_valid (ctc : Z80_CTC) (c v : Nat) (hc : c < 4) :
    z80_ctc_set_interrupt_vector ctc c v =
      ctc.setChannel ⟨c, hc⟩ { ctc.channels ⟨c, hc⟩ with interrupt_vector := v % 256 } := by
  have h1 : c % 256 = c := Nat.mod_eq_of_lt (by omega)
  have h3 : ¬ c > 3 := by omega
  simp [z80_ctc_set_interrupt_vector, h1, h3]

theorem write_control_any (ctc : Z80_CTC) (c b : Nat) (hc : c < 4) :
    z80_ctc_write_control ctc c b =
      ctc.setChannel ⟨c, hc⟩ (write_control_channel (ctc.channels ⟨c, hc⟩) (b % 256)) := by
  have h1 : c % 256 = c := Nat.mod_eq_of_lt (by omega)
  have h3 : ¬ c > 3 := by omega
  simp [z80_ctc_write_control, h1, h3]

theorem write_time_constant_any (ctc : Z80_CTC) (c k : Nat) (hc : c < 4) :
    z80_ctc_write_time_constant ctc c k =
      ctc.setChannel ⟨c, hc⟩
        (write_time_constant_channel (ctc.channels ⟨c, hc⟩) (k % 256)) := by
  have h1 : c % 256 = c := Nat.mod_eq_of_lt (by omega)
  have h3 : ¬ c > 3 := by omega
  simp [z80_ctc_write_time_constant, h1, h3]

theorem same_outside_setChannel (ctc : Z80_CTC) (c : Fin 4) (ch : Z80_CTC_Channel) :
    same_outside c ctc (ctc.setChannel c ch) :=
  ⟨fun d hd => setChannel_other ctc c d ch hd, rfl, rfl, rfl⟩

/-- C11: with a channel index `n` in `4..255`, `z80_ctc_write_control`,
`z80_ctc_write_time_constant`, `z80_ctc_set_callback`, `z80_ctc_trigger_input`
and `z80_ctc_set_interrupt_vector` return the controller they were given (and
`z80_ctc_trigger_input` calls nothing), and `z80_ctc_get_interrupt_vector`
returns 0. -/
theorem out_of_range_channel_ignored (ctc : Z80_CTC) (n : Nat) (h4 : 4 ≤ n) (h256 : n < 256) :
    (∀ b : Nat, z80_ctc_write_control ctc n b = ctc) ∧
    (∀ k : Nat, z80_ctc_write_time_constant ctc n k = ctc) ∧
    (∀ cb cx : Nat, z80_ctc_set_callback ctc n cb cx = ctc) ∧
    (∀ v : Bool, z80_ctc_trigger_input ctc n v = (ctc, [])) ∧
    (∀ v : Nat, z80_ctc_set_interrupt_vector ctc n v = ctc) ∧
    z80_ctc_get_interrupt_vector ctc n = 0 := by
  have h1 : n % 256 = n := Nat.mod_eq_of_lt h256
  have h3 : n > 3 := by omega
  refine ⟨?_, ?_, ?_, ?_, ?_, ?_⟩
  · intro b
    simp [z80_ctc_write_control, h1, h3]
  · intro k
    simp [z80_ctc_write_time_constant, h1, h3]
  · intro cb cx
    simp [z80_ctc_set_callback, h1, h3]
  · intro v
    simp [z80_ctc_trigger_input, h1, h3]
  · intro v
    simp [z80_ctc_set_interrupt_vector, h1, h3]
  · simp [z80_ctc_get_interrupt_vector, h1, h3]

/-- Witness of C11: index 4 on the controller with two pending interrupts. -/
theorem out_of_range_channel_ignored_witness :
    (4 ≤ 4 ∧ 4 < 256) ∧
    z80_ctc_write_control two_pending 4 0x87 = two_pending ∧
    z80_ctc_write_time_constant two_pending 4 10 = two_pending ∧
    z80_ctc_trigger_input two_pending 4 true = (two_pending, []) ∧
    z80_ctc_get_interrupt_vector two_pending 4 = 0 :=
  ⟨by decide,
    (out_of_range_channel_ignored two_pending 4 (by decide) (by decide)).1 0x87,
    (out_of_range_channel_ignored two_pending 4 (by decide) (by decide)).2.1 10,
    (out_of_range_channel_ignored two_pending 4 (by decide) (by decide)).2.2.2.1 true,
    (out_of_range_channel_ignored two_pending 4 (by decide) (by decide)).2.2.2.2.2⟩

theorem trigger_input_channel_timer (i : Nat) (ch : Z80_CTC_Channel) (v : Bool)
    (hm : ch.mode = CTC_MODE_TIMER) : trigger_input_channel i ch v = (ch, []) := by
  simp [trigger_input_channel, hm]

/-- C12, as stated, fails: channel 0 is in Timer mode after `z80_ctc_init`,
and `z80_ctc_trigger_input(0, true)` leaves its `last_trigger_state` false. -/
theorem trigger_input_timer_keeps_last :
    ((z80_ctc_init zero_ctc 4000000).channels 0).mode = CTC_MODE_TIMER ∧
    ((z80_ctc_trigger_input (z80_ctc_init zero_ctc 4000000) 0 true).1.channels
      0).last_trigger_state ≠ true := by
  decide

/-- C12, amended: after `z80_ctc_trigger_input(c, v)` with `c` in `0..3`, a
channel `c` in Counter mode has `last_trigger_state = v`, whether or not it is
running and whether or not the edge condition matched; a channel `c` in Timer
mode keeps the `last_trigger_state` it had. -/
theorem trigger_input_last_state (ctc : Z80_CTC) (c : Nat) (v : Bool) (hc : c < 4) :
    ((ctc.channels ⟨c, hc⟩).mode = CTC_MODE_COUNTER →
      ((z80_ctc_trigger_input ctc c v).1.channels ⟨c, hc⟩).last_trigger_state = v) ∧
    ((ctc.channels ⟨c, hc⟩).mode = CTC_MODE_TIMER →
      ((z80_ctc_trigger_input ctc c v).1.channels ⟨c, hc⟩).last_trigger_state =
        (ctc.channels ⟨c, hc⟩).last_trigger_state) := by
  rw [trigger_input_valid ctc c v hc]
  simp only [setChannel_same]
  refine ⟨?_, ?_⟩
  · intro hm
    exact (trigger_input_channel_keeps c _ v hm).2.2
  · intro hm
    rw [trigger_input_channel_timer c _ v hm]

/-- Witness of C12 (amended): a stopped Counter-mode channel takes the level,
a Timer-mode channel does not. -/
theorem trigger_input_last_state_witness :
    (1 < 4 ∧ ((z80_ctc_write_control zero_ctc 1 0xC4).channels 1).mode = CTC_MODE_COUNTER ∧
      (zero_ctc.channels 1).mode = CTC_MODE_TIMER) ∧
    ((z80_ctc_trigger_input (z80_ctc_write_control zero_ctc 1 0xC4) 1 true).1.channels
      1).last_trigger_state = true ∧
    ((z80_ctc_trigger_input zero_ctc 1 true).1.channels 1).last_trigger_state =
      (zero_ctc.channels 1).last_trigger_state :=
  ⟨by decide,
    (trigger_input_last_state (z80_ctc_write_control zero_ctc 1 0xC4) 1 true (by decide)).1
      (by decide),
    (trigger_input_last_state zero_ctc 1 true (by decide)).2 (by decide)⟩

/-- C13: `z80_ctc_trigger_input(c, v)` on a channel `c` in `0..3` whose mode
is Timer returns the controller unchanged and an empty trace (no callback is
invoked). -/
theorem trigger_input_timer_noop (ctc : Z80_CTC) (c : Nat) (v : Bool) (hc : c < 4)
    (hm : (ctc.channels ⟨c, hc⟩).mode = CTC_MODE_TIMER) :
    z80_ctc_trigger_input ctc c v = (ctc, []) := by
  rw [trigger_input_valid ctc c v hc, trigger_input_channel_timer c _ v hm]
  exact Prod.ext (setChannel_self ctc ⟨c, hc⟩) rfl

/-- Witness of C13: channel 0 of the timer scenario, a running Timer-mode
channel with a falling-edge setting, fed a low level after a high one. -/
theorem trigger_input_timer_noop_witness :
    (0 < 4 ∧ (scenario_timer.channels 0).mode = CTC_MODE_TIMER) ∧
    z80_ctc_trigger_input scenario_timer 0 false = (scenario_timer, []) :=
  ⟨by decide, trigger_input_timer_noop scenario_timer 0 false (by decide) (by decide)⟩

/-- C16: for a clock frequency `f` (a 32-bit value), `z80_ctc_init` gives a
controller with `system_clock_frequency = f`, no global handler (and a null
handler context), and every channel in the default state: Timer mode,
prescaler 16, Falling edge, not running, interrupts disabled, nothing
pending, all counters and registers 0, `last_trigger_state` false, no
callback; the result is the same whatever the controller held before. -/
theorem init_default_state (prior : Z80_CTC) (f : Nat) (hf : f < 2 ^ 32) :
    (z80_ctc_init prior f).system_clock_frequency = f ∧
    (z80_ctc_init prior f).interrupt_handler = 0 ∧
    (z80_ctc_init prior f).interrupt_context = 0 ∧
    (∀ j : Fin 4,
      (z80_ctc_init prior f).channels j =
        { mode := CTC_MODE_TIMER, prescaler := 16,
          trigger_edge := CTC_TRIGGER_FALLING_EDGE, interrupt_enabled := false,
          interrupt_vector := 0, control_register := 0, time_constant := 0,
          current_count := 0, is_running := false, interrupt_pending := false,
          last_trigger_state := false, trigger_count := 0, expiration_callback := 0,
          callback_context := 0 }) ∧
    (∀ other : Z80_CTC, z80_ctc_init other f = z80_ctc_init prior f) := by
  obtain ⟨h1, h2, h3⟩ := init_fields prior f
  refine ⟨?_, h2, h3, ?_, ?_⟩
  · rw [h1, Nat.mod_eq_of_lt hf]
  · intro j
    rw [init_channels]
    rfl
  · intro other
    rfl

/-- Witness of C16: the 4 MHz clock of the example, on a controller that held
two pending interrupts. -/
theorem init_default_state_witness :
    4000000 < 2 ^ 32 ∧
    (z80_ctc_init two_pending 4000000).system_clock_frequency = 4000000 ∧
    (z80_ctc_init two_pending 4000000).interrupt_handler = 0 ∧
    (z80_ctc_init two_pending 4000000).channels 2 = default_channel ∧
    z80_ctc_init zero_ctc 4000000 = z80_ctc_init two_pending 4000000 :=
  ⟨by decide,
    (init_default_state two_pending 4000000 (by decide)).1,
    (init_default_state two_pending 4000000 (by decide)).2.1,
    (init_default_state two_pending 4000000 (by decide)).2.2.2.1 2,
    (init_default_state two_pending 4000000 (by decide)).2.2.2.2 zero_ctc⟩

theorem write_control_channel_vector (ch : Z80_CTC_Channel) (b : Nat) :
    (write_control_channel ch b).interrupt_vector = ch.interrupt_vector := by
  unfold write_control_channel
  simp only
  split <;> split <;> rfl

theorem write_control_vector (ctc : Z80_CTC) (n b : Nat) (j : Fin 4) :
    ((z80_ctc_write_control ctc n b).channels j).interrupt_vector =
      (ctc.channels j).interrupt_vector := by
  by_cases h : n % 256 > 3
  · simp [z80_ctc_write_control, h]
  · have hlt : n % 256 < 4 := by omega
    have hw := write_control_any ctc (n % 256) b hlt
    have hmod : z80_ctc_write_control ctc n b = z80_ctc_write_control ctc (n % 256) b := by
      simp [z80_ctc_write_control]
    rw [hmod, hw]
    by_cases hj : j = ⟨n % 256, hlt⟩
    · subst hj
      rw [setChannel_same, write_control_channel_vector]
    · rw [setChannel_other _ _ _ _ hj]

theorem write_time_constant_vector (ctc : Z80_CTC) (n k : Nat) (j : Fin 4) :
    ((z80_ctc_write_time_constant ctc n k).channels j).interrupt_vector =
      (ctc.channels j).interrupt_vector := by
  by_cases h : n % 256 > 3
  · simp [z80_ctc_write_time_constant, h]
  · have hlt : n % 256 < 4 := by omega
    have hw := write_time_constant_any ctc (n % 256) k hlt
    have hmod : z80_ctc_write_time_constant ctc n k =
        z80_ctc_write_time_constant ctc (n % 256) k := by
      simp [z80_ctc_write_time_constant]
    rw [hmod, hw]
    by_cases hj : j = ⟨n % 256, hlt⟩
    · subst hj
      rw [setChannel_same]
      rfl
    · rw [setChannel_other _ _ _ _ hj]

/-- C17: for `c` in `0..3` and a byte `v`, `z80_ctc_get_interrupt_vector(c)`
after `z80_ctc_set_interrupt_vector(c, v)` returns `v`; the set changes
nothing but `interrupt_vector` of channel `c`; and `z80_ctc_write_control` and
`z80_ctc_write_time_constant`, on any channel with any byte, leave every
channel's `interrupt_vector` as it was. -/
theorem interrupt_vector_independent (ctc : Z80_CTC) (c v : Nat) (hc : c < 4) (hv : v < 256) :
    z80_ctc_get_interrupt_vector (z80_ctc_set_interrupt_vector ctc c v) c = v ∧
    z80_ctc_set_interrupt_vector ctc c v =
      ctc.setChannel ⟨c, hc⟩ { ctc.channels ⟨c, hc⟩ with interrupt_vector := v } ∧
    (∀ (n b : Nat) (j : Fin 4),
      ((z80_ctc_write_control ctc n b).channels j).interrupt_vector =
        (ctc.channels j).interrupt_vector) ∧
    (∀ (n k : Nat) (j : Fin 4),
      ((z80_ctc_write_time_constant ctc n k).channels j).interrupt_vector =
        (ctc.channels j).interrupt_vector) := by
  have h1 : c % 256 = c := Nat.mod_eq_of_lt (by omega)
  have h3 : ¬ c > 3 := by omega
  have hset := set_interrupt_vector_valid ctc c v hc
  rw [Nat.mod_eq_of_lt hv] at hset
  refine ⟨?_, hset, write_control_vector ctc, write_time_constant_vector ctc⟩
  rw [hset]
  simp [z80_ctc_get_interrupt_vector, h1, h3]

/-- Witness of C17: vector `0x10` on channel 0, as in the example, then a
control word with the reset bit. -/
theorem interrupt_vector_independent_witness :
    (0 < 4 ∧ 0x10 < 256) ∧
    z80_ctc_get_interrupt_vector (z80_ctc_set_interrupt_vector zero_ctc 0 0x10) 0 = 0x10 ∧
    ((z80_ctc_write_control (z80_ctc_set_interrupt_vector zero_ctc 0 0x10) 0 0x86).channels
      0).interrupt_vector =
      ((z80_ctc_set_interrupt_vector zero_ctc 0 0x10).channels 0).interrupt_vector :=
  ⟨by decide,
    (interrupt_vector_independent zero_ctc 0 0x10 (by decide) (by decide)).1,
    (interrupt_vector_independent (z80_ctc_set_interrupt_vector zero_ctc 0 0x10) 0 0x10
      (by decide) (by decide)).2.2.1 0 0x86 0⟩

/-- C20: an operation addressed to a valid channel `c` (`z80_ctc_write_control`,
`z80_ctc_write_time_constant`, `z80_ctc_set_callback`, `z80_ctc_trigger_input`,
`z80_ctc_set_interrupt_vector`) leaves every other channel, the clock
frequency and the global handler as they were; `z80_ctc_clock_tick` gives each
channel a new state that depends on that channel's old state only, and leaves
a channel that is in Counter mode or not running unchanged. -/
theorem channel_isolation (ctc : Z80_CTC) (c : Nat) (hc : c < 4) :
    (∀ b : Nat, same_outside ⟨c, hc⟩ ctc (z80_ctc_write_control ctc c b)) ∧
    (∀ k : Nat, same_outside ⟨c, hc⟩ ctc (z80_ctc_write_time_constant ctc c k)) ∧
    (∀ cb cx : Nat, same_outside ⟨c, hc⟩ ctc (z80_ctc_set_callback ctc c cb cx)) ∧
    (∀ v : Bool, same_outside ⟨c, hc⟩ ctc (z80_ctc_trigger_input ctc c v).1) ∧
    (∀ v : Nat, same_outside ⟨c, hc⟩ ctc (z80_ctc_set_interrupt_vector ctc c v)) ∧
    (∀ (other : Z80_CTC) (j : Fin 4), other.channels j = ctc.channels j →
      (z80_ctc_clock_tick other).1.channels j = (z80_ctc_clock_tick ctc).1.channels j) ∧
    (∀ j : Fin 4,
      (ctc.channels j).mode = CTC_MODE_COUNTER ∨ (ctc.channels j).is_running = false →
      (z80_ctc_clock_tick ctc).1.channels j = ctc.channels j) := by
  refine ⟨?_, ?_, ?_, ?_, ?_, ?_, ?_⟩
  · intro b
    rw [write_control_any ctc c b hc]
    exact same_outside_setChannel _ _ _
  · intro k
    rw [write_time_constant_any ctc c k hc]
    exact same_outside_setChannel _ _ _
  · intro cb cx
    rw [set_callback_valid ctc c cb cx hc]
    exact same_outside_setChannel _ _ _
  · intro v
    rw [trigger_input_valid ctc c v hc]
    exact same_outside_setChannel _ _ _
  · intro v
    rw [set_interrupt_vector_valid ctc c v hc]
    exact same_outside_setChannel _ _ _
  · intro other j hj
    rw [clock_tick_channels, clock_tick_channels, hj]
  · intro j hj
    rw [clock_tick_channels, clock_tick_channel_idle]
    rcases hj with hmode | hrun
    · left
      rw [hmode]
      decide
    · right
      exact hrun

/-- Witness of C20: a control word with the reset bit written to channel 0 of
the controller with two pending interrupts leaves channel 2 pending. -/
theorem channel_isolation_witness :
    0 < 4 ∧
    (z80_ctc_write_control two_pending 0 0x03).channels 2 = two_pending.channels 2 ∧
    (z80_ctc_write_control two_pending 0 0x03).interrupt_handler
      = two_pending.interrupt_handler :=
  ⟨by decide,
    ((channel_isolation two_pending 0 (by decide)).1 0x03).1 2 (by decide),
    ((channel_isolation two_pending 0 (by decide)).1 0x03).2.2.1⟩

/-! ## Closed form of Timer mode at prescaler 16 -/

theorem clock_ticks_prescaler_16 (ctc : Z80_CTC) (c : Nat) (hc : c < 4) (n : Nat)
    (hm : (ctc.channels ⟨c, hc⟩).mode = CTC_MODE_TIMER)
    (hr : (ctc.channels ⟨c, hc⟩).is_running = true)
    (hp : (ctc.channels ⟨c, hc⟩).prescaler = 16)
    (ht : (ctc.channels ⟨c, hc⟩).trigger_count < 16)
    (hC1 : 1 ≤ (ctc.channels ⟨c, hc⟩).current_count)
    (hCR : (ctc.channels ⟨c, hc⟩).current_count ≤ reload (ctc.channels ⟨c, hc⟩).time_constant) :
    (clock_ticks ctc n).1.channels ⟨c, hc⟩ =
      { counted (ctc.channels ⟨c, hc⟩) (((ctc.channels ⟨c, hc⟩).trigger_count + n) / 16) with
        trigger_count := ((ctc.channels ⟨c, hc⟩).trigger_count + n) % 16 } ∧
    decrements c (clock_ticks ctc n).2 = ((ctc.channels ⟨c, hc⟩).trigger_count + n) / 16 ∧
    zero_crossings c (clock_ticks ctc n).2 =
      (reload (ctc.channels ⟨c, hc⟩).time_constant - (ctc.channels ⟨c, hc⟩).current_count +
        ((ctc.channels ⟨c, hc⟩).trigger_count + n) / 16) /
        reload (ctc.channels ⟨c, hc⟩).time_constant := by
  have hticks := channel_ticks_prescaler_16 c (ctc.channels ⟨c, hc⟩) n hm hr hp ht
  have hclosed := count_downs_closed c (ctc.channels ⟨c, hc⟩)
    (((ctc.channels ⟨c, hc⟩).trigger_count + n) / 16) hC1 hCR
  have hch := clock_ticks_channels ctc ⟨c, hc⟩ n
  have hdec := clock_ticks_count ctc ⟨c, hc⟩ (Event.decrement c) rfl n
  have hzero := clock_ticks_count ctc ⟨c, hc⟩ (Event.zero_count c) rfl n
  simp only [hticks] at hch hdec hzero
  refine ⟨?_, ?_, ?_⟩
  · rw [hch, hclosed.1]
  · unfold decrements
    rw [hdec]
    exact hclosed.2.1
  · unfold zero_crossings
    rw [hzero]
    exact hclosed.2.2.1

/-- C19: a running Timer-mode channel `c` with prescaler 16, `trigger_count`
`t < 16`, reload value `R` and `current_count` `C` with `1 ≤ C ≤ R` has, after
`n` calls of `z80_ctc_clock_tick`, `trigger_count = (t + n) mod 16`, run the
counting step `d = (t + n) / 16` times, had `(R - C + d) / R` zero-crossings,
and holds `current_count = R - (R - C + d) mod R`; from `t = 0` and `C = R`
the tick number `m + 1` has a zero-crossing exactly when `16 * R` divides
`m + 1`. -/
theorem timer_prescaler_16_closed_form (ctc : Z80_CTC) (c : Nat) (hc : c < 4) (n : Nat)
    (hm : (ctc.channels ⟨c, hc⟩).mode = CTC_MODE_TIMER)
    (hr : (ctc.channels ⟨c, hc⟩).is_running = true)
    (hp : (ctc.channels ⟨c, hc⟩).prescaler = CTC_PRESCALER_16)
    (ht : (ctc.channels ⟨c, hc⟩).trigger_count < 16)
    (hC1 : 1 ≤ (ctc.channels ⟨c, hc⟩).current_count)
    (hCR : (ctc.channels ⟨c, hc⟩).current_count ≤ reload (ctc.channels ⟨c, hc⟩).time_constant) :
    ((clock_ticks ctc n).1.channels ⟨c, hc⟩).trigger_count =
      ((ctc.channels ⟨c, hc⟩).trigger_count + n) % 16 ∧
    decrements c (clock_ticks ctc n).2 = ((ctc.channels ⟨c, hc⟩).trigger_count + n) / 16 ∧
    zero_crossings c (clock_ticks ctc n).2 =
      (reload (ctc.channels ⟨c, hc⟩).time_constant - (ctc.channels ⟨c, hc⟩).current_count +
        ((ctc.channels ⟨c, hc⟩).trigger_count + n) / 16) /
        reload (ctc.channels ⟨c, hc⟩).time_constant ∧
    ((clock_ticks ctc n).1.channels ⟨c, hc⟩).current_count =
      reload (ctc.channels ⟨c, hc⟩).time_constant -
        (reload (ctc.channels ⟨c, hc⟩).time_constant - (ctc.channels ⟨c, hc⟩).current_count +
          ((ctc.channels ⟨c, hc⟩).trigger_count + n) / 16) %
          reload (ctc.channels ⟨c, hc⟩).time_constant ∧
    ((ctc.channels ⟨c, hc⟩).trigger_count = 0 →
      (ctc.channels ⟨c, hc⟩).current_count = reload (ctc.channels ⟨c, hc⟩).time_constant →
      ∀ m : Nat,
        (Event.zero_count c ∈ (z80_ctc_clock_tick (clock_ticks ctc m).1).2 ↔
          16 * reload (ctc.channels ⟨c, hc⟩).time_constant ∣ m + 1)) := by
  have hgen := fun k => clock_ticks_prescaler_16 ctc c hc k hm hr hp ht hC1 hCR
  obtain ⟨hch, hdec, hzero⟩ := hgen n
  refine ⟨?_, hdec, hzero, ?_, ?_⟩
  · rw [hch]
  · rw [hch]
    rfl
  · intro ht0 hfull m
    have hR := reload_pos (ctc.channels ⟨c, hc⟩).time_constant
    have hz1 := (hgen (m + 1)).2.2
    have hz0 := (hgen m).2.2
    rw [ht0, hfull, Nat.sub_self, Nat.zero_add, Nat.zero_add, Nat.div_div_eq_div_mul] at hz1 hz0
    have hsplit : zero_crossings c (clock_ticks ctc (m + 1)).2 =
        zero_crossings c (clock_ticks ctc m).2 +
          (z80_ctc_clock_tick (clock_ticks ctc m).1).2.count (Event.zero_count c) := by
      simp only [zero_crossings, clock_ticks, List.count_append]
    rw [hz1, hz0, Nat.succ_div] at hsplit
    rw [← List.count_pos_iff]
    by_cases hdvd : 16 * reload (ctc.channels ⟨c, hc⟩).time_constant ∣ m + 1
    · simp only [hdvd, ↓reduceIte] at hsplit
      constructor
      · intro _
        exact hdvd
      · intro _
        omega
    · simp only [hdvd, ↓reduceIte] at hsplit
      constructor
      · intro hpos
        omega
      · intro h
        exact absurd h hdvd

/-- Witness of C19: channel 0 of the timer scenario (prescaler 16, reload
100): 1600 ticks give one zero-crossing and the count back at 100, and tick
number 1600 is the one that has it. -/
theorem timer_prescaler_16_closed_form_witness :
    ((scenario_timer.channels 0).mode = CTC_MODE_TIMER ∧
      (scenario_timer.channels 0).is_running = true ∧
      (scenario_timer.channels 0).prescaler = CTC_PRESCALER_16 ∧
      (scenario_timer.channels 0).trigger_count = 0 ∧
      (scenario_timer.channels 0).current_count = 100 ∧
      reload (scenario_timer.channels 0).time_constant = 100) ∧
    zero_crossings 0 (clock_ticks scenario_timer 1600).2 = (100 - 100 + (0 + 1600) / 16) / 100 ∧
    (Event.zero_count 0 ∈ (z80_ctc_clock_tick (clock_ticks scenario_timer 1599).1).2 ↔
      16 * 100 ∣ 1599 + 1) :=
  ⟨by decide,
    (timer_prescaler_16_closed_form scenario_timer 0 (by decide) 1600 (by decide) (by decide)
      (by decide) (by decide) (by decide) (by decide)).2.2.1,
    (timer_prescaler_16_closed_form scenario_timer 0 (by decide) 1599 (by decide) (by decide)
      (by decide) (by decide) (by decide) (by decide)).2.2.2.2 (by decide) (by decide) 1599⟩

/-! ## Invariants of the reachable states -/

theorem acknowledge_ctc_cases (H : Z80_CTC_Handlers) (ctc : Z80_CTC) :
    (z80_ctc_acknowledge_interrupt H ctc).ctc = ctc ∨
    ∃ i : Fin 4, (z80_ctc_acknowledge_interrupt H ctc).ctc =
      ctc.setChannel i { ctc.channels i with interrupt_pending := false } := by
  by_cases h : 0 < pending_count ctc
  · obtain ⟨i, hi, hlow⟩ := first_request ctc h
    right
    exact ⟨i, by rw [acknowledge_first H ctc i hi hlow, acknowledge_at_ctc]⟩
  · left
    have hfalse : z80_ctc_has_pending_interrupt ctc = false := by
      cases hp : z80_ctc_has_pending_interrupt ctc
      · rfl
      · exact absurd ((has_pending_iff_count ctc).mp hp) h
    rw [acknowledge_none H ctc ((has_pending_false_iff ctc).mp hfalse)]

theorem setChannel_step (ctc : Z80_CTC) (i j : Fin 4) (ch : Z80_CTC_Channel)
    (h : channel_step (ctc.channels i) ch) :
    channel_step (ctc.channels j) ((ctc.setChannel i ch).channels j) := by
  by_cases hj : j = i
  · subst hj
    rw [setChannel_same]
    exact h
  · rw [setChannel_other _ _ _ _ hj]
    exact channel_step.same _

theorem write_control_channels (ctc : Z80_CTC) (n b : Nat) (j : Fin 4) :
    (z80_ctc_write_control ctc n b).channels j =
      (if n % 256 = j.val then write_control_channel (ctc.channels j) (b % 256)
       else ctc.channels j) := by
  by_cases h : n % 256 > 3
  · have hne : ¬ n % 256 = j.val := by
      have := j.isLt
      omega
    simp [z80_ctc_write_control, h, hne]
  · have hlt : n % 256 < 4 := by omega
    have hmod : z80_ctc_write_control ctc n b = z80_ctc_write_control ctc (n % 256) b := by
      simp [z80_ctc_write_control]
    rw [hmod, write_control_any ctc (n % 256) b hlt]
    by_cases hj : j = ⟨n % 256, hlt⟩
    · subst hj
      simp
    · have hne : ¬ n % 256 = j.val := fun heq => hj (Fin.ext heq.symm)
      rw [setChannel_other _ _ _ _ hj]
      simp [hne]

theorem apply_op_step (H : Z80_CTC_Handlers) (ctc : Z80_CTC) (op : Op) (j : Fin 4)
    (hop : ∀ n b, op ≠ Op.write_control n b) :
    channel_step (ctc.channels j) ((apply_op H ctc op).channels j) := by
  cases op with
  | write_control n b => exact absurd rfl (hop n b)
  | write_time_constant n k =>
    simp only [apply_op]
    by_cases h : n % 256 > 3
    · have hsame : z80_ctc_write_time_constant ctc n k = ctc := by
        simp [z80_ctc_write_time_constant, h]
      rw [hsame]
      exact channel_step.same _
    · have hlt : n % 256 < 4 := by omega
      have hmod : z80_ctc_write_time_constant ctc n k =
          z80_ctc_write_time_constant ctc (n % 256) k := by
        simp [z80_ctc_write_time_constant]
      rw [hmod, write_time_constant_any ctc (n % 256) k hlt]
      exact setChannel_step _ _ _ _ (channel_step.constant _ _ (Nat.mod_lt _ (by decide)))
  | set_callback n cb cx =>
    simp only [apply_op]
    by_cases h : n % 256 > 3
    · have hsame : z80_ctc_set_callback ctc n cb cx = ctc := by
        simp [z80_ctc_set_callback, h]
      rw [hsame]
      exact channel_step.same _
    · have hlt : n % 256 < 4 := by omega
      have hmod : z80_ctc_set_callback ctc n cb cx =
          z80_ctc_set_callback ctc (n % 256) cb cx := by
        simp [z80_ctc_set_callback]
      rw [hmod, set_callback_valid ctc (n % 256) cb cx hlt]
      exact setChannel_step _ _ _ _ (channel_step.callback _ _ _)
  | trigger_input n v =>
    simp only [apply_op]
    by_cases h : n % 256 > 3
    · have hsame : z80_ctc_trigger_input ctc n v = (ctc, []) := by
        simp [z80_ctc_trigger_input, h]
      rw [hsame]
      exact channel_step.same _
    · have hlt : n % 256 < 4 := by omega
      have hmod : z80_ctc_trigger_input ctc n v = z80_ctc_trigger_input ctc (n % 256) v := by
        simp [z80_ctc_trigger_input]
      rw [hmod, trigger_input_valid ctc (n % 256) v hlt]
      exact setChannel_step _ _ _ _ (channel_step.trigger _ _ _)
  | clock_tick =>
    simp only [apply_op]
    rw [clock_tick_channels]
    exact channel_step.tick _ _
  | set_interrupt_vector n v =>
    simp only [apply_op]
    by_cases h : n % 256 > 3
    · have hsame : z80_ctc_set_interrupt_vector ctc n v = ctc := by
        simp [z80_ctc_set_interrupt_vector, h]
      rw [hsame]
      exact channel_step.same _
    · have hlt : n % 256 < 4 := by omega
      have hmod : z80_ctc_set_interrupt_vector ctc n v =
          z80_ctc_set_interrupt_vector ctc (n % 256) v := by
        simp [z80_ctc_set_interrupt_vector]
      rw [hmod, set_interrupt_vector_valid ctc (n % 256) v hlt]
      exact setChannel_step _ _ _ _ (channel_step.vector _ _)
  | set_global_interrupt_handler h cx =>
    exact channel_step.same _
  | acknowledge_interrupt =>
    simp only [apply_op]
    rcases acknowledge_ctc_cases H ctc with hsame | ⟨i, hi⟩
    · rw [hsame]
      exact channel_step.same _
    · rw [hi]
      exact setChannel_step _ _ _ _ (channel_step.acknowledge _)

theorem count_down_running (i : Nat) (ch : Z80_CTC_Channel) :
    (count_down i ch).1.is_running = ch.is_running := by
  have h := congrArg Z80_CTC_Channel.is_running (count_down_frame i ch)
  exact h

theorem count_down_time_constant (i : Nat) (ch : Z80_CTC_Channel) :
    (count_down i ch).1.time_constant = ch.time_constant := by
  have h := congrArg Z80_CTC_Channel.time_constant (count_down_frame i ch)
  exact h

theorem counts_in_range_count_down (i : Nat) (ch : Z80_CTC_Channel)
    (h : counts_in_range ch) : counts_in_range (count_down i ch).1 := by
  obtain ⟨htc, hle, hrun⟩ := h
  have hcount := count_down_current_count i ch
  have hR1 := reload_pos ch.time_constant
  have hR2 := reload_le ch.time_constant htc
  refine ⟨?_, ?_, ?_⟩
  · rw [count_down_time_constant]
    exact htc
  · rw [hcount]
    split <;> omega
  · intro hr
    rw [count_down_running] at hr
    obtain ⟨h1, h2⟩ := hrun hr
    rw [hcount, count_down_time_constant]
    split <;> omega

theorem trigger_input_channel_cases (i : Nat) (ch : Z80_CTC_Channel) (v : Bool) :
    trigger_input_channel i ch v = (ch, []) ∨
    trigger_input_channel i ch v = ({ ch with last_trigger_state := v }, []) ∨
    (ch.is_running = true ∧
      trigger_input_channel i ch v =
        ({ (count_down i ch).1 with last_trigger_state := v }, (count_down i ch).2)) := by
  by_cases hm : ch.mode ≠ CTC_MODE_COUNTER
  · left
    simp [trigger_input_channel, hm]
  · unfold trigger_input_channel
    rw [if_neg hm]
    simp only
    split
    · rename_i hc
      right; right
      simp only [Bool.and_eq_true] at hc
      exact ⟨hc.2, rfl⟩
    · right; left
      rfl

theorem clock_tick_channel_cases (i : Nat) (ch : Z80_CTC_Channel) :
    clock_tick_channel i ch = (ch, []) ∨
    clock_tick_channel i ch =
      ({ ch with trigger_count := (ch.trigger_count + 1) % 256 }, []) ∧
      (ch.trigger_count + 1) % 256 < ch.prescaler ∨
    (ch.is_running = true ∧
      clock_tick_channel i ch = count_down i { ch with trigger_count := 0 }) := by
  by_cases h : ch.mode ≠ CTC_MODE_TIMER ∨ ch.is_running = false
  · left
    exact clock_tick_channel_idle i ch h
  · have hm : ch.mode = CTC_MODE_TIMER := by
      by_contra hne
      exact h (Or.inl hne)
    have hr : ch.is_running = true := by
      cases hrun : ch.is_running
      · exact absurd (Or.inr hrun) h
      · rfl
    by_cases hp : (ch.trigger_count + 1) % 256 < ch.prescaler
    · right; left
      exact ⟨clock_tick_channel_wait i ch hm hr hp, hp⟩
    · right; right
      exact ⟨hr, clock_tick_channel_fire i ch hm hr hp⟩

theorem counts_in_range_step (ch ch2 : Z80_CTC_Channel) (h : counts_in_range ch)
    (hs : channel_step ch ch2) : counts_in_range ch2 := by
  cases hs with
  | same => exact h
  | constant k hk =>
    have hR1 := reload_pos k
    have hR2 := reload_le k hk
    refine ⟨hk, ?_, ?_⟩
    · exact hR2
    · intro _
      exact ⟨hR1, Nat.le_refl _⟩
  | callback cb cx => exact h
  | trigger i v =>
    rcases trigger_input_channel_cases i ch v with he | he | ⟨_, he⟩
    · rw [he]; exact h
    · rw [he]; exact h
    · rw [he]; exact counts_in_range_count_down i ch h
  | tick i =>
    rcases clock_tick_channel_cases i ch with he | ⟨he, _⟩ | ⟨_, he⟩
    · rw [he]; exact h
    · rw [he]; exact h
    · rw [he]
      exact counts_in_range_count_down i { ch with trigger_count := 0 } h
  | vector v => exact h
  | acknowledge => exact h

theorem counts_in_range_control (ch : Z80_CTC_Channel) (b : Nat) (h : counts_in_range ch) :
    counts_in_range (write_control_channel ch b) := by
  obtain ⟨htc, hle, hrun⟩ := h
  unfold write_control_channel counts_in_range
  simp only
  split <;> split <;> simp_all

theorem counts_in_range_apply (H : Z80_CTC_Handlers) (ctc : Z80_CTC) (op : Op)
    (h : ∀ j : Fin 4, counts_in_range (ctc.channels j)) :
    ∀ j : Fin 4, counts_in_range ((apply_op H ctc op).channels j) := by
  intro j
  by_cases hop : ∃ n b, op = Op.write_control n b
  · obtain ⟨n, b, rfl⟩ := hop
    simp only [apply_op]
    rw [write_control_channels]
    split
    · exact counts_in_range_control _ _ (h j)
    · exact h j
  · exact counts_in_range_step _ _ (h j)
      (apply_op_step H ctc op j (fun n b heq => hop ⟨n, b, heq⟩))

theorem counts_in_range_run (H : Z80_CTC_Handlers) (ops : List Op) :
    ∀ ctc : Z80_CTC, (∀ j : Fin 4, counts_in_range (ctc.channels j)) →
      ∀ j : Fin 4, counts_in_range ((run_ops H ctc ops).channels j) := by
  induction ops with
  | nil => intro ctc h; exact h
  | cons op rest ih =>
    intro ctc h
    exact ih (apply_op H ctc op) (counts_in_range_apply H ctc op h)

theorem counts_in_range_init (prior : Z80_CTC) (f : Nat) (j : Fin 4) :
    counts_in_range ((z80_ctc_init prior f).channels j) := by
  rw [init_channels]
  simp [counts_in_range, zero_channel]

theorem trigger_input_channel_event (i : Nat) (ch : Z80_CTC_Channel) (v : Bool) (e : Event)
    (he : e ∈ (trigger_input_channel i ch v).2) :
    ch.is_running = true ∧ e.channel_of = i := by
  rcases trigger_input_channel_cases i ch v with h | h | ⟨hr, h⟩
  · rw [h] at he
    simp at he
  · rw [h] at he
    simp at he
  · rw [h] at he
    exact ⟨hr, count_down_source i ch e he⟩

theorem clock_tick_channel_event (i : Nat) (ch : Z80_CTC_Channel) (e : Event)
    (he : e ∈ (clock_tick_channel i ch).2) : ch.is_running = true := by
  rcases clock_tick_channel_cases i ch with h | ⟨h, _⟩ | ⟨hr, _⟩
  · rw [h] at he
    simp at he
  · rw [h] at he
    simp at he
  · exact hr

theorem clock_tick_decrement_running (ctc : Z80_CTC) (j : Fin 4)
    (he : Event.decrement j.val ∈ (z80_ctc_clock_tick ctc).2) :
    (ctc.channels j).is_running = true := by
  have hpos := List.count_pos_iff.mpr he
  rw [clock_tick_count ctc j (Event.decrement j.val) rfl] at hpos
  exact clock_tick_channel_event j.val _ _ (List.count_pos_iff.mp hpos)

theorem trigger_input_decrement_running (ctc : Z80_CTC) (c : Nat) (v : Bool) (j : Fin 4)
    (he : Event.decrement j.val ∈ (z80_ctc_trigger_input ctc c v).2) :
    (ctc.channels j).is_running = true := by
  by_cases h : c % 256 > 3
  · have hsame : z80_ctc_trigger_input ctc c v = (ctc, []) := by
      simp [z80_ctc_trigger_input, h]
    rw [hsame] at he
    simp at he
  · have hlt : c % 256 < 4 := by omega
    have hmod : z80_ctc_trigger_input ctc c v = z80_ctc_trigger_input ctc (c % 256) v := by
      simp [z80_ctc_trigger_input]
    rw [hmod, trigger_input_valid ctc (c % 256) v hlt] at he
    obtain ⟨hr, hsrc⟩ := trigger_input_channel_event _ _ _ _ he
    have hj : j = ⟨c % 256, hlt⟩ := Fin.ext hsrc
    rw [hj]
    exact hr

theorem clock_tick_channel_running (i : Nat) (ch : Z80_CTC_Channel) :
    (clock_tick_channel i ch).1.is_running = ch.is_running := by
  rcases clock_tick_channel_cases i ch with h | ⟨h, _⟩ | ⟨_, h⟩
  · rw [h]
  · rw [h]
  · rw [h, count_down_running]

theorem trigger_input_channel_running (i : Nat) (ch : Z80_CTC_Channel) (v : Bool) :
    (trigger_input_channel i ch v).1.is_running = ch.is_running := by
  rcases trigger_input_channel_cases i ch v with h | h | ⟨_, h⟩
  · rw [h]
  · rw [h]
  · rw [h]
    exact count_down_running i ch

theorem trigger_input_running (ctc : Z80_CTC) (c : Nat) (v : Bool) (j : Fin 4) :
    ((z80_ctc_trigger_input ctc c v).1.channels j).is_running =
      (ctc.channels j).is_running := by
  by_cases h : c % 256 > 3
  · have hsame : z80_ctc_trigger_input ctc c v = (ctc, []) := by
      simp [z80_ctc_trigger_input, h]
    rw [hsame]
  · have hlt : c % 256 < 4 := by omega
    have hmod : z80_ctc_trigger_input ctc c v = z80_ctc_trigger_input ctc (c % 256) v := by
      simp [z80_ctc_trigger_input]
    rw [hmod, trigger_input_valid ctc (c % 256) v hlt]
    by_cases hj : j = ⟨c % 256, hlt⟩
    · subst hj
      rw [setChannel_same, trigger_input_channel_running]
    · rw [setChannel_other _ _ _ _ hj]

/-- C14: in every controller state reached from `z80_ctc_init` by a sequence
of public operations, every channel has `current_count ≤ 256` and every
running channel has `1 ≤ current_count ≤ R`, `R` the reload value of its time
constant; so after a `z80_ctc_clock_tick` or a `z80_ctc_trigger_input` the
count of a running channel is not 0, and whenever one of the two runs the
counting step of a channel (a `decrement` entry in its trace) the count of
that channel is positive beforehand: the floor at 0 is never used. -/
theorem reachable_counts_in_range (H : Z80_CTC_Handlers) (prior : Z80_CTC) (f : Nat)
    (ops : List Op) :
    (∀ j : Fin 4,
      ((run_ops H (z80_ctc_init prior f) ops).channels j).current_count ≤ 256 ∧
      (((run_ops H (z80_ctc_init prior f) ops).channels j).is_running = true →
        1 ≤ ((run_ops H (z80_ctc_init prior f) ops).channels j).current_count ∧
        ((run_ops H (z80_ctc_init prior f) ops).channels j).current_count ≤
          (if ((run_ops H (z80_ctc_init prior f) ops).channels j).time_constant = 0 then 256
           else ((run_ops H (z80_ctc_init prior f) ops).channels j).time_constant))) ∧
    (∀ j : Fin 4, ((run_ops H (z80_ctc_init prior f) ops).channels j).is_running = true →
      ((z80_ctc_clock_tick (run_ops H (z80_ctc_init prior f) ops)).1.channels j).current_count
        ≠ 0 ∧
      ∀ (c : Nat) (v : Bool),
        ((z80_ctc_trigger_input (run_ops H (z80_ctc_init prior f) ops) c v).1.channels
          j).current_count ≠ 0) ∧
    (∀ j : Fin 4,
      Event.decrement j.val ∈ (z80_ctc_clock_tick (run_ops H (z80_ctc_init prior f) ops)).2 →
      0 < ((run_ops H (z80_ctc_init prior f) ops).channels j).current_count) ∧
    (∀ (c : Nat) (v : Bool) (j : Fin 4),
      Event.decrement j.val ∈
        (z80_ctc_trigger_input (run_ops H (z80_ctc_init prior f) ops) c v).2 →
      0 < ((run_ops H (z80_ctc_init prior f) ops).channels j).current_count) := by
  have hinv := counts_in_range_run H ops (z80_ctc_init prior f) (counts_in_range_init prior f)
  refine ⟨?_, ?_, ?_, ?_⟩
  · intro j
    obtain ⟨_, hle, hrun⟩ := hinv j
    exact ⟨hle, hrun⟩
  · intro j hr
    refine ⟨?_, ?_⟩
    · have hnext := counts_in_range_apply H _ Op.clock_tick hinv j
      simp only [apply_op] at hnext
      have hr2 : ((z80_ctc_clock_tick (run_ops H (z80_ctc_init prior f) ops)).1.channels
          j).is_running = true := by
        rw [clock_tick_channels, clock_tick_channel_running]
        exact hr
      have := (hnext.2.2 hr2).1
      omega
    · intro c v
      have hnext := counts_in_range_apply H _ (Op.trigger_input c v) hinv j
      simp only [apply_op] at hnext
      have hr2 : ((z80_ctc_trigger_input (run_ops H (z80_ctc_init prior f) ops) c v).1.channels
          j).is_running = true := by
        rw [trigger_input_running]
        exact hr
      have := (hnext.2.2 hr2).1
      omega
  · intro j he
    have hr := clock_tick_decrement_running _ j he
    have := ((hinv j).2.2 hr).1
    omega
  · intro c v j he
    have hr := trigger_input_decrement_running _ c v j he
    have := ((hinv j).2.2 hr).1
    omega

set_option maxRecDepth 100000 in
/-- C15, as stated, fails: sixteen ticks under prescaler 256 followed by a
control word that selects prescaler 16 leave channel 0 with
`trigger_count = 16`, which is not below its prescaler 16. -/
theorem trigger_count_reaches_prescaler :
    ((run_ops sample_handlers (z80_ctc_init zero_ctc 4000000) prescaler_switch_ops).channels
      0).prescaler = 16 ∧
    ¬ ((run_ops sample_handlers (z80_ctc_init zero_ctc 4000000) prescaler_switch_ops).channels
        0).trigger_count <
      ((run_ops sample_handlers (z80_ctc_init zero_ctc 4000000) prescaler_switch_ops).channels
        0).prescaler := by
  decide

theorem count_down_prescaler_fields (i : Nat) (ch : Z80_CTC_Channel) :
    (count_down i ch).1.trigger_count = ch.trigger_count ∧
    (count_down i ch).1.prescaler = ch.prescaler := by
  have h1 := congrArg Z80_CTC_Channel.trigger_count (count_down_frame i ch)
  have h2 := congrArg Z80_CTC_Channel.prescaler (count_down_frame i ch)
  exact ⟨h1, h2⟩

theorem channel_step_prescaler (ch ch2 : Z80_CTC_Channel) (hs : channel_step ch ch2) :
    ch2.prescaler = ch.prescaler ∧
    (ch2.trigger_count = ch.trigger_count ∨ ch2.trigger_count = 0 ∨
      (ch2.trigger_count = (ch.trigger_count + 1) % 256 ∧
        (ch.trigger_count + 1) % 256 < ch.prescaler)) := by
  cases hs with
  | same => exact ⟨rfl, Or.inl rfl⟩
  | constant k hk => exact ⟨rfl, Or.inl rfl⟩
  | callback cb cx => exact ⟨rfl, Or.inl rfl⟩
  | trigger i v =>
    rcases trigger_input_channel_cases i ch v with he | he | ⟨_, he⟩
    · rw [he]; exact ⟨rfl, Or.inl rfl⟩
    · rw [he]; exact ⟨rfl, Or.inl rfl⟩
    · rw [he]
      exact ⟨(count_down_prescaler_fields i ch).2, Or.inl (count_down_prescaler_fields i ch).1⟩
  | tick i =>
    rcases clock_tick_channel_cases i ch with he | ⟨he, hlt⟩ | ⟨_, he⟩
    · rw [he]; exact ⟨rfl, Or.inl rfl⟩
    · rw [he]; exact ⟨rfl, Or.inr (Or.inr ⟨rfl, hlt⟩)⟩
    · rw [he]
      exact ⟨(count_down_prescaler_fields i _).2,
        Or.inr (Or.inl (count_down_prescaler_fields i _).1)⟩
  | vector v => exact ⟨rfl, Or.inl rfl⟩
  | acknowledge => exact ⟨rfl, Or.inl rfl⟩

theorem write_control_channel_prescaler (ch : Z80_CTC_Channel) (b : Nat) :
    (write_control_channel ch b).trigger_count = ch.trigger_count ∧
    (write_control_channel ch b).prescaler =
      (if b &&& CTC_CTRL_PRESCALER_MASK ≠ 0 then 256 else 16) := by
  unfold write_control_channel
  simp only
  split <;> split <;> exact ⟨rfl, rfl⟩

theorem trigger_count_byte_step (ch ch2 : Z80_CTC_Channel) (h : trigger_count_byte ch)
    (hs : channel_step ch ch2) : trigger_count_byte ch2 := by
  obtain ⟨hp, ht⟩ := channel_step_prescaler ch ch2 hs
  obtain ⟨h1, h2⟩ := h
  refine ⟨?_, by rw [hp]; exact h2⟩
  rcases ht with ht | ht | ⟨ht, _⟩
  · omega
  · omega
  · rw [ht]
    exact Nat.mod_lt _ (by decide)

theorem below_prescaler_step (ch ch2 : Z80_CTC_Channel) (h : below_prescaler ch)
    (hs : channel_step ch ch2) : below_prescaler ch2 := by
  obtain ⟨hp, ht⟩ := channel_step_prescaler ch ch2 hs
  obtain ⟨h1, h2⟩ := h
  refine ⟨?_, by rw [hp]; exact h2⟩
  rw [hp]
  rcases ht with ht | ht | ⟨ht, hlt⟩
  · omega
  · rcases h2 with h16 | h256 <;> omega
  · omega

theorem trigger_count_byte_apply (H : Z80_CTC_Handlers) (ctc : Z80_CTC) (op : Op)
    (h : ∀ j : Fin 4, trigger_count_byte (ctc.channels j)) :
    ∀ j : Fin 4, trigger_count_byte ((apply_op H ctc op).channels j) := by
  intro j
  by_cases hop : ∃ n b, op = Op.write_control n b
  · obtain ⟨n, b, rfl⟩ := hop
    simp only [apply_op]
    rw [write_control_channels]
    split
    · obtain ⟨ht, hp⟩ := write_control_channel_prescaler (ctc.channels j) (b % 256)
      refine ⟨by rw [ht]; exact (h j).1, ?_⟩
      rw [hp]
      split
      · right; rfl
      · left; rfl
    · exact h j
  · exact trigger_count_byte_step _ _ (h j)
      (apply_op_step H ctc op j (fun n b heq => hop ⟨n, b, heq⟩))

theorem below_prescaler_apply (H : Z80_CTC_Handlers) (ctc : Z80_CTC) (op : Op)
    (h : ∀ j : Fin 4, below_prescaler (ctc.channels j))
    (hsafe : lowers_below_count ctc op = false) :
    ∀ j : Fin 4, below_prescaler ((apply_op H ctc op).channels j) := by
  intro j
  by_cases hop : ∃ n b, op = Op.write_control n b
  · obtain ⟨n, b, rfl⟩ := hop
    simp only [apply_op]
    rw [write_control_channels]
    split
    · rename_i hn
      obtain ⟨ht, hp⟩ := write_control_channel_prescaler (ctc.channels j) (b % 256)
      have hlt : n % 256 < 4 := by rw [hn]; exact j.isLt
      have hj : (⟨n % 256, hlt⟩ : Fin 4) = j := Fin.ext hn
      simp only [lowers_below_count, hlt, ↓reduceDIte, hj, Bool.and_eq_false_imp,
        decide_eq_true_eq, decide_eq_false_iff_not, Nat.not_le] at hsafe
      obtain ⟨h1, h2⟩ := h j
      refine ⟨?_, ?_⟩
      · rw [ht, hp]
        split
        · rcases h2 with h16 | h256 <;> omega
        · rename_i hbit
          simp only [ne_eq, not_not] at hbit
          exact hsafe hbit
      · rw [hp]
        split
        · right; rfl
        · left; rfl
    · exact h j
  · exact below_prescaler_step _ _ (h j)
      (apply_op_step H ctc op j (fun n b heq => hop ⟨n, b, heq⟩))

theorem trigger_count_byte_run (H : Z80_CTC_Handlers) (ops : List Op) :
    ∀ ctc : Z80_CTC, (∀ j : Fin 4, trigger_count_byte (ctc.channels j)) →
      ∀ j : Fin 4, trigger_count_byte ((run_ops H ctc ops).channels j) := by
  induction ops with
  | nil => intro ctc h; exact h
  | cons op rest ih =>
    intro ctc h
    exact ih (apply_op H ctc op) (trigger_count_byte_apply H ctc op h)

theorem below_prescaler_run (H : Z80_CTC_Handlers) (ops : List Op) :
    ∀ ctc : Z80_CTC, (∀ j : Fin 4, below_prescaler (ctc.channels j)) →
      prescaler_safe H ctc ops = true →
      ∀ j : Fin 4, below_prescaler ((run_ops H ctc ops).channels j) := by
  induction ops with
  | nil => intro ctc h _; exact h
  | cons op rest ih =>
    intro ctc h hsafe
    simp only [prescaler_safe, Bool.and_eq_true, Bool.not_eq_true'] at hsafe
    exact ih (apply_op H ctc op) (below_prescaler_apply H ctc op h hsafe.1) hsafe.2

/-- C15, amended: in every controller state reached from `z80_ctc_init` by a
sequence of public operations every channel has prescaler 16 or 256 and
`trigger_count` in `0..255`; and `trigger_count < prescaler` holds in every
channel provided no `z80_ctc_write_control` of the sequence selected prescaler
16 on a channel whose `trigger_count` had already reached 16
(`z80_ctc_write_control` stores the prescaler and leaves `trigger_count`). -/
theorem reachable_trigger_count_bounds (H : Z80_CTC_Handlers) (prior : Z80_CTC) (f : Nat)
    (ops : List Op) :
    (∀ j : Fin 4,
      ((run_ops H (z80_ctc_init prior f) ops).channels j).trigger_count < 256 ∧
      (((run_ops H (z80_ctc_init prior f) ops).channels j).prescaler = CTC_PRESCALER_16 ∨
        ((run_ops H (z80_ctc_init prior f) ops).channels j).prescaler = CTC_PRESCALER_256)) ∧
    (prescaler_safe H (z80_ctc_init prior f) ops = true →
      ∀ j : Fin 4,
        ((run_ops H (z80_ctc_init prior f) ops).channels j).trigger_count <
          ((run_ops H (z80_ctc_init prior f) ops).channels j).prescaler) := by
  have hinit1 : ∀ j : Fin 4, trigger_count_byte ((z80_ctc_init prior f).channels j) := by
    intro j
    rw [init_channels]
    simp [trigger_count_byte, zero_channel]
  have hinit2 : ∀ j : Fin 4, below_prescaler ((z80_ctc_init prior f).channels j) := by
    intro j
    rw [init_channels]
    simp [below_prescaler, zero_channel]
  refine ⟨?_, ?_⟩
  · intro j
    exact trigger_count_byte_run H ops _ hinit1 j
  · intro hsafe j
    exact (below_prescaler_run H ops _ hinit2 hsafe j).1

/-- Witness of C15 (amended): two ticks under prescaler 256, then a switch to
prescaler 16 while `trigger_count` is 2. -/
theorem reachable_trigger_count_bounds_witness :
    prescaler_safe sample_handlers (z80_ctc_init zero_ctc 4000000) early_switch_ops = true ∧
    ((run_ops sample_handlers (z80_ctc_init zero_ctc 4000000) early_switch_ops).channels
      0).trigger_count <
      ((run_ops sample_handlers (z80_ctc_init zero_ctc 4000000) early_switch_ops).channels
        0).prescaler :=
  ⟨by decide,
    (reachable_trigger_count_bounds sample_handlers zero_ctc 4000000 early_switch_ops).2
      (by decide) 0⟩

/-! ## Counter mode with the Falling edge -/

theorem trigger_high_falling (i : Nat) (ch : Z80_CTC_Channel)
    (hm : ch.mode = CTC_MODE_COUNTER) (he : ch.trigger_edge = CTC_TRIGGER_FALLING_EDGE) :
    trigger_input_channel i ch true = ({ ch with last_trigger_state := true }, []) := by
  simp [trigger_input_channel, hm, he]

theorem trigger_low_falling_edge (i : Nat) (ch : Z80_CTC_Channel)
    (hm : ch.mode = CTC_MODE_COUNTER) (he : ch.trigger_edge = CTC_TRIGGER_FALLING_EDGE)
    (hr : ch.is_running = true) (hl : ch.last_trigger_state = true) :
    trigger_input_channel i ch false =
      ({ (count_down i ch).1 with last_trigger_state := false }, (count_down i ch).2) := by
  simp [trigger_input_channel, hm, he, hr, hl]

theorem trigger_low_falling_hold (i : Nat) (ch : Z80_CTC_Channel)
    (hm : ch.mode = CTC_MODE_COUNTER) (he : ch.trigger_edge = CTC_TRIGGER_FALLING_EDGE)
    (hl : ch.last_trigger_state = false) :
    trigger_input_channel i ch false = (ch, []) := by
  cases ch
  simp only at hm he hl
  subst hm he hl
  simp [trigger_input_channel]

theorem pulse_channel_falling_first (i : Nat) (ch : Z80_CTC_Channel)
    (hm : ch.mode = CTC_MODE_COUNTER) (he : ch.trigger_edge = CTC_TRIGGER_FALLING_EDGE)
    (hl : ch.last_trigger_state = false) :
    pulse_channel i ch = ({ ch with last_trigger_state := true }, []) := by
  unfold pulse_channel
  rw [trigger_low_falling_hold i ch hm he hl]
  simp only [trigger_high_falling i ch hm he, List.append_nil]

theorem pulse_channel_falling_next (i : Nat) (ch : Z80_CTC_Channel)
    (hm : ch.mode = CTC_MODE_COUNTER) (he : ch.trigger_edge = CTC_TRIGGER_FALLING_EDGE)
    (hr : ch.is_running = true) (hl : ch.last_trigger_state = true) :
    pulse_channel i ch =
      ({ (count_down i ch).1 with last_trigger_state := true }, (count_down i ch).2) := by
  unfold pulse_channel
  rw [trigger_low_falling_edge i ch hm he hr hl]
  have hfr := count_down_frame i ch
  have hm2 : (count_down i ch).1.mode = CTC_MODE_COUNTER :=
    (congrArg Z80_CTC_Channel.mode hfr).trans hm
  have he2 : (count_down i ch).1.trigger_edge = CTC_TRIGGER_FALLING_EDGE :=
    (congrArg Z80_CTC_Channel.trigger_edge hfr).trans he
  have h := trigger_high_falling i { (count_down i ch).1 with last_trigger_state := false }
    hm2 he2
  simp only [h, List.append_nil]

theorem trigger_pulses_falling_closed (ctc : Z80_CTC) (c : Nat) (hc : c < 4)
    (hm : (ctc.channels ⟨c, hc⟩).mode = CTC_MODE_COUNTER)
    (he : (ctc.channels ⟨c, hc⟩).trigger_edge = CTC_TRIGGER_FALLING_EDGE)
    (hr : (ctc.channels ⟨c, hc⟩).is_running = true)
    (hl : (ctc.channels ⟨c, hc⟩).last_trigger_state = false) (n : Nat) :
    trigger_pulses ctc c (n + 1) =
      (ctc.setChannel ⟨c, hc⟩
        { (count_downs c (ctc.channels ⟨c, hc⟩) n).1 with last_trigger_state := true },
        (count_downs c (ctc.channels ⟨c, hc⟩) n).2) := by
  induction n with
  | zero =>
    simp only [trigger_pulses, trigger_pulse_valid ctc c hc,
      pulse_channel_falling_first c _ hm he hl, count_downs, List.nil_append]
  | succ n ih =>
    have hfr := count_downs_frame c (ctc.channels ⟨c, hc⟩) n
    have hm2 : (count_downs c (ctc.channels ⟨c, hc⟩) n).1.mode = CTC_MODE_COUNTER :=
      (congrArg Z80_CTC_Channel.mode hfr).trans hm
    have he2 : (count_downs c (ctc.channels ⟨c, hc⟩) n).1.trigger_edge
        = CTC_TRIGGER_FALLING_EDGE :=
      (congrArg Z80_CTC_Channel.trigger_edge hfr).trans he
    have hr2 : (count_downs c (ctc.channels ⟨c, hc⟩) n).1.is_running = true :=
      (congrArg Z80_CTC_Channel.is_running hfr).trans hr
    have hpulse := pulse_channel_falling_next c
      { (count_downs c (ctc.channels ⟨c, hc⟩) n).1 with last_trigger_state := true }
      hm2 he2 hr2 rfl
    have hlast := count_down_last c (count_downs c (ctc.channels ⟨c, hc⟩) n).1 true
    rw [trigger_pulses, ih]
    simp only [trigger_pulse_valid _ c hc, setChannel_same, setChannel_twice, hpulse, hlast,
      count_downs]

theorem example_counter_channel :
    example_counter.channels 1 =
      { zero_channel with
        mode := CTC_MODE_COUNTER, prescaler := 16,
        trigger_edge := CTC_TRIGGER_FALLING_EDGE, interrupt_enabled := true,
        interrupt_vector := 0x20, control_register := 0xC4, time_constant := 10,
        current_count := 10, is_running := true, expiration_callback := 0x4000,
        callback_context := 0x5001 } := by
  decide

theorem example_counter_crossings (n : Nat) :
    zero_crossings 1 (trigger_pulses example_counter 1 n).2 = (n - 1) / 10 ∧
    callback_calls 1 0x4000 0x5001 (trigger_pulses example_counter 1 n).2 = (n - 1) / 10 := by
  cases n with
  | zero => exact ⟨rfl, rfl⟩
  | succ n =>
    have h1 : (⟨1, by decide⟩ : Fin 4) = 1 := rfl
    have hclosed := trigger_pulses_falling_closed example_counter 1 (by decide)
      (by decide) (by decide) (by decide) (by decide) n
    rw [h1] at hclosed
    have hcount := count_downs_closed 1 (example_counter.channels 1) n
      (by rw [example_counter_channel]; decide) (by rw [example_counter_channel]; decide)
    rw [hclosed]
    refine ⟨?_, ?_⟩
    · have h := hcount.2.2.1
      rw [example_counter_channel] at h
      simp only [zero_channel, reload] at h
      simpa [example_counter_channel] using h
    · have h := hcount.2.2.2
      rw [example_counter_channel] at h
      simp only [zero_channel, reload] at h
      simpa [example_counter_channel] using h

/-- C18, on the code: the control word `0xC4` of the example has bit 4 clear,
so channel 1 (interrupts enabled, Counter mode) counts Falling edges; the
first low-high pair of the loop is not counted, the channel has expired
`(n - 1) / 10` times after `n` pairs, not at all after 10 pairs, and 4 times
after the 50 pairs of the example. -/
theorem example_counter_counts_falling_edges :
    (example_counter.channels 1).interrupt_enabled = true ∧
    (example_counter.channels 1).mode = CTC_MODE_COUNTER ∧
    (example_counter.channels 1).trigger_edge = CTC_TRIGGER_FALLING_EDGE ∧
    (∀ n : Nat, zero_crossings 1 (trigger_pulses example_counter 1 n).2 = (n - 1) / 10) ∧
    zero_crossings 1 (trigger_pulses example_counter 1 10).2 = 0 ∧
    zero_crossings 1 (trigger_pulses example_counter 1 11).2 = 1 ∧
    zero_crossings 1 (trigger_pulses example_counter 1 50).2 = 4 ∧
    callback_calls 1 0x4000 0x5001 (trigger_pulses example_counter 1 50).2 = 4 :=
  ⟨by decide, by decide, by decide, fun n => (example_counter_crossings n).1,
    (example_counter_crossings 10).1.trans (by decide),
    (example_counter_crossings 11).1.trans (by decide),
    (example_counter_crossings 50).1.trans (by decide),
    (example_counter_crossings 50).2.trans (by decide)⟩

/-! ## Timer mode at prescaler 256 -/

/-- C21: `trigger_count` is an 8-bit field, incremented modulo 256 and tested
with `trigger_count < prescaler`; so on a running Timer-mode channel `c` with
prescaler 256, `n` calls of `z80_ctc_clock_tick` change nothing in the channel
but `trigger_count`, which becomes `(trigger_count + n) mod 256`:
`current_count` and `interrupt_pending` are as before, and the trace holds no
run of the counting step, no zero-crossing and no callback call of channel
`c`. -/
theorem timer_prescaler_256_stalls (ctc : Z80_CTC) (c : Nat) (hc : c < 4) (n : Nat)
    (hm : (ctc.channels ⟨c, hc⟩).mode = CTC_MODE_TIMER)
    (hr : (ctc.channels ⟨c, hc⟩).is_running = true)
    (hp : (ctc.channels ⟨c, hc⟩).prescaler = CTC_PRESCALER_256)
    (ht : (ctc.channels ⟨c, hc⟩).trigger_count < 256) :
    (clock_ticks ctc n).1.channels ⟨c, hc⟩ =
      { ctc.channels ⟨c, hc⟩ with
        trigger_count := ((ctc.channels ⟨c, hc⟩).trigger_count + n) % 256 } ∧
    ((clock_ticks ctc n).1.channels ⟨c, hc⟩).current_count =
      (ctc.channels ⟨c, hc⟩).current_count ∧
    ((clock_ticks ctc n).1.channels ⟨c, hc⟩).interrupt_pending =
      (ctc.channels ⟨c, hc⟩).interrupt_pending ∧
    ((clock_ticks ctc n).1.channels ⟨c, hc⟩).trigger_count =
      ((ctc.channels ⟨c, hc⟩).trigger_count + n) % 256 ∧
    decrements c (clock_ticks ctc n).2 = 0 ∧
    zero_crossings c (clock_ticks ctc n).2 = 0 ∧
    (∀ fn context : Nat, callback_calls c fn context (clock_ticks ctc n).2 = 0) := by
  have hticks := channel_ticks_prescaler_256 c (ctc.channels ⟨c, hc⟩) n hm hr hp ht
  have hch : (clock_ticks ctc n).1.channels ⟨c, hc⟩ =
      { ctc.channels ⟨c, hc⟩ with
        trigger_count := ((ctc.channels ⟨c, hc⟩).trigger_count + n) % 256 } := by
    have h := clock_ticks_channels ctc ⟨c, hc⟩ n
    simp only [hticks] at h
    exact h
  have hnone : ∀ e : Event, e.channel_of = c → (clock_ticks ctc n).2.count e = 0 := by
    intro e he
    have h := clock_ticks_count ctc ⟨c, hc⟩ e he n
    simp only [hticks, List.count_nil] at h
    exact h
  refine ⟨hch, ?_, ?_, ?_, hnone _ rfl, hnone _ rfl, fun fn context => hnone _ rfl⟩
  · rw [hch]
  · rw [hch]
  · rw [hch]

/-- Witness of C21: channel 0 with prescaler 256 and time constant 1; after
1000 ticks the count is still 1, nothing has crossed zero, and
`trigger_count` is `1000 mod 256`. -/
theorem timer_prescaler_256_stalls_witness :
    ((prescaler_256_timer.channels 0).mode = CTC_MODE_TIMER ∧
      (prescaler_256_timer.channels 0).is_running = true ∧
      (prescaler_256_timer.channels 0).prescaler = CTC_PRESCALER_256 ∧
      (prescaler_256_timer.channels 0).trigger_count = 0 ∧
      (prescaler_256_timer.channels 0).current_count = 1) ∧
    ((clock_ticks prescaler_256_timer 1000).1.channels 0).current_count =
      (prescaler_256_timer.channels 0).current_count ∧
    ((clock_ticks prescaler_256_timer 1000).1.channels 0).trigger_count =
      ((prescaler_256_timer.channels 0).trigger_count + 1000) % 256 ∧
    zero_crossings 0 (clock_ticks prescaler_256_timer 1000).2 = 0 :=
  ⟨by decide,
    (timer_prescaler_256_stalls prescaler_256_timer 0 (by decide) 1000 (by decide) (by decide)
      (by decide) (by decide)).2.1,
    (timer_prescaler_256_stalls prescaler_256_timer 0 (by decide) 1000 (by decide) (by decide)
      (by decide) (by decide)).2.2.2.1,
    (timer_prescaler_256_stalls prescaler_256_timer 0 (by decide) 1000 (by decide) (by decide)
      (by decide) (by decide)).2.2.2.2.2.1⟩

end Z80CTC
